import Mathlib

/-!
UdpChat user registry: `src/src/UserManager.hpp`.

A shallow embedding of the two classes of `UserManager.hpp`:

* `UserInfo`    : one user record (profile strings, id, status, UDP peer address);
* `UserManager` : the map of all users, the id allocator `prepare_id_` and the
  vector `Online_user_`.

Conventions of the embedding.

* `std::string` is `String`; `s.size() == 0` is `s.length = 0`.
* `uint32_t` and `socklen_t` values are `Nat`; the one arithmetic operation on
  them, `prepare_id_++`, is taken modulo `2^32`.
* `int` values (the status field, the return codes) are `Int`.
* `std::unordered_map<uint32_t, UserInfo>` is an association list.  The code
  never iterates over the map, it only calls `find`, `insert` and writes through
  the iterator returned by `find`; these are `UserMap.find`, `UserMap.insert`
  and `UserMap.modify`.
* Every member function becomes a function from the state before the call to
  its return value and the state after the call.  The mutex `map_lock_` guards
  the state against other threads and holds no data of the registry; calls are
  modelled one at a time, and where each function locks and unlocks is kept
  apart, as a list of events per call.  The line `std::cout << "test islogin"`
  writes to the process's standard output, which is not part of the registry
  either.
-/

/-! ## Constants of `ConnectInfo.hpp` -/

/-- Modelled from the spec: the five user-status constants `REGISTER_FAILED`,
`REGISTRE_SUCCESS`, `LOGIN_FAILED`, `LOGIN_SUCCESS` and `ONLINE` are declared in
`ConnectInfo.hpp`, which is not part of the sources at hand.  Their values are
taken as a parameter of every function that uses them. -/
structure StatusCodes where
  REGISTER_FAILED : Int
  REGISTRE_SUCCESS : Int
  LOGIN_FAILED : Int
  LOGIN_SUCCESS : Int
  ONLINE : Int
deriving DecidableEq, Repr

/-- Modelled from the spec: the only thing the specification says about the
status constants of `ConnectInfo.hpp` is their order,
`RegisterFailed < RegisterSuccess < LoginFailed < LoginSuccess < Online`. -/
def StatusCodes.Ordered (c : StatusCodes) : Prop :=
  c.REGISTER_FAILED < c.REGISTRE_SUCCESS ∧ c.REGISTRE_SUCCESS < c.LOGIN_FAILED ∧
    c.LOGIN_FAILED < c.LOGIN_SUCCESS ∧ c.LOGIN_SUCCESS < c.ONLINE

instance (c : StatusCodes) : Decidable c.Ordered := by
  unfold StatusCodes.Ordered; infer_instance

/-- One assignment of values that respects the order: an enumeration counted
from zero. -/
def StatusCodes.enum : StatusCodes :=
  { REGISTER_FAILED := 0, REGISTRE_SUCCESS := 1, LOGIN_FAILED := 2, LOGIN_SUCCESS := 3,
    ONLINE := 4 }

/-! ## `struct sockaddr_in` -/

/-- The IPv4 socket address of `<netinet/in.h>`, field by field; `sin_zero` is
the eight padding bytes read as one number. -/
structure sockaddr_in where
  sin_family : Nat
  sin_port : Nat
  sin_addr : Nat
  sin_zero : Nat
deriving DecidableEq, Repr

/-- The value left by `memset(&addr_, 0, sizeof(struct sockaddr_in))`. -/
def sockaddr_in.zero : sockaddr_in :=
  { sin_family := 0, sin_port := 0, sin_addr := 0, sin_zero := 0 }

/-! ## `class UserInfo` -/

/-- The data members of `UserInfo`. -/
structure UserInfo where
  nick_name_ : String
  school_ : String
  passwd_ : String
  user_id_ : Nat
  user_status_ : Int
  addr_ : sockaddr_in
  addr_len_ : Nat
deriving DecidableEq, Repr

/-- The constructor `UserInfo::UserInfo(nick_name, school, passwd, user_id)`
(a Lean name cannot repeat the name of its own type). -/
def UserInfo.ctor (c : StatusCodes) (nick_name school passwd : String) (user_id : Nat) :
    UserInfo :=
  { nick_name_ := nick_name
    school_ := school
    passwd_ := passwd
    user_id_ := user_id
    user_status_ := c.REGISTER_FAILED
    addr_ := sockaddr_in.zero
    addr_len_ := 0 }

def UserInfo.GetPasswd (u : UserInfo) : String := u.passwd_

def UserInfo.SetUserStatus (u : UserInfo) (status : Int) : UserInfo :=
  { u with user_status_ := status }

def UserInfo.GetUserStatus (u : UserInfo) : Int := u.user_status_

def UserInfo.SetaddrInfo (u : UserInfo) (addr : sockaddr_in) : UserInfo :=
  { u with addr_ := addr }

def UserInfo.SetaddrLenInfo (u : UserInfo) (addr_len : Nat) : UserInfo :=
  { u with addr_len_ := addr_len }

def UserInfo.GetAddrInfo (u : UserInfo) : sockaddr_in := u.addr_

def UserInfo.GetAddrLen (u : UserInfo) : Nat := u.addr_len_

/-! ## `std::unordered_map<uint32_t, UserInfo>` -/

/-- The user map as an association list of (key, record) pairs. -/
abbrev UserMap := List (Nat × UserInfo)

/-- The call `user_map_.find(id)`: `none` stands for `user_map_.end()`, `some u`
for an iterator whose `second` is `u`. -/
def UserMap.find : UserMap → Nat → Option UserInfo
  | [], _ => none
  | (k, u) :: rest, id => if k = id then some u else UserMap.find rest id

/-- The call `user_map_.insert(std::make_pair(id, ui))`: the pair is added only
when the map has no element with that key. -/
def UserMap.insert (m : UserMap) (id : Nat) (ui : UserInfo) : UserMap :=
  match UserMap.find m id with
  | some _ => m
  | none => (id, ui) :: m

/-- A write `iter->second = f(iter->second)` through the iterator that
`find(id)` returned. -/
def UserMap.modify : UserMap → Nat → (UserInfo → UserInfo) → UserMap
  | [], _, _ => []
  | (k, u) :: rest, id, f =>
    if k = id then (k, f u) :: rest else (k, u) :: UserMap.modify rest id f

/-- The number of elements, `user_map_.size()`. -/
def UserMap.size (m : UserMap) : Nat := m.length

/-! ## `class UserManager` -/

/-- The data members of `UserManager` (the mutex apart). -/
structure UserManager where
  user_map_ : UserMap
  prepare_id_ : Nat
  Online_user_ : List UserInfo
deriving DecidableEq, Repr

/-- The constructor `UserManager::UserManager()`. -/
def UserManager.ctor : UserManager :=
  { user_map_ := [], prepare_id_ := 0, Online_user_ := [] }

/-- What a call of `DealRegister` leaves behind: the returned `int`, the value
stored through the out-parameter `user_id` (`none` when the call does not write
it) and the registry. -/
structure RegisterResult where
  ret : Int
  user_id : Option Nat
  mgr : UserManager
deriving DecidableEq, Repr

/-- The member function `UserManager::DealRegister`. -/
def UserManager.DealRegister (c : StatusCodes) (m : UserManager)
    (nick_name school passwd : String) : RegisterResult :=
  if nick_name.length = 0 ∨ school.length = 0 ∨ passwd.length = 0 then
    { ret := -1, user_id := none, mgr := m }
  else
    let ui := UserInfo.ctor c nick_name school passwd m.prepare_id_
    let ui := ui.SetUserStatus c.REGISTRE_SUCCESS
    { ret := 0
      user_id := some m.prepare_id_
      mgr :=
        { m with
          user_map_ := m.user_map_.insert m.prepare_id_ ui
          prepare_id_ := (m.prepare_id_ + 1) % 2 ^ 32 } }

/-- The member function `UserManager::DealLogin`: the returned `int` and the
registry after the call. -/
def UserManager.DealLogin (c : StatusCodes) (m : UserManager) (id : Nat) (passwd : String) :
    Int × UserManager :=
  if passwd.length = 0 then (-1, m)
  else
    match m.user_map_.find id with
    | none => (-2, m)
    | some u =>
      let reg_passwd := u.GetPasswd
      if reg_passwd ≠ passwd then
        (-3, { m with
               user_map_ := m.user_map_.modify id (fun v => v.SetUserStatus c.LOGIN_FAILED) })
      else
        (0, { m with
              user_map_ := m.user_map_.modify id (fun v => v.SetUserStatus c.LOGIN_SUCCESS) })

/-- The three writes of the promotion branch of `IsLogin` on `iter->second`. -/
def UserInfo.promote (c : StatusCodes) (addr : sockaddr_in) (addr_len : Nat) (u : UserInfo) :
    UserInfo :=
  ((u.SetUserStatus c.ONLINE).SetaddrInfo addr).SetaddrLenInfo addr_len

/-- The member function `UserManager::IsLogin`: the returned `int` and the
registry after the call. -/
def UserManager.IsLogin (c : StatusCodes) (m : UserManager) (user_id : Nat)
    (addr : sockaddr_in) (addr_len : Nat) : Int × UserManager :=
  match m.user_map_.find user_id with
  | none => (-1, m)
  | some u =>
    if u.GetUserStatus ≤ c.LOGIN_FAILED then (-1, m)
    else if u.GetUserStatus = c.LOGIN_SUCCESS then
      let u1 := UserInfo.promote c addr addr_len u
      (0, { m with
            user_map_ := m.user_map_.modify user_id (UserInfo.promote c addr addr_len)
            Online_user_ := m.Online_user_ ++ [u1] })
    else (0, m)

/-- The member function `UserManager::GetOnlineUser`: the content of `*vec`
after the call and the registry after the call.  The assignment
`*vec = Online_user_` overwrites whatever `*vec` held before, here `_vec`. -/
def UserManager.GetOnlineUser (m : UserManager) (_vec : List UserInfo) :
    List UserInfo × UserManager :=
  (m.Online_user_, m)

/-! ## Sequences of calls -/

/-- One call of a public member function of `UserManager`, with its arguments. -/
inductive Call where
  | Register (nick_name school passwd : String)
  | Login (id : Nat) (passwd : String)
  | IsLogin (user_id : Nat) (addr : sockaddr_in) (addr_len : Nat)
  | GetOnlineUser
deriving DecidableEq, Repr

/-- What the caller gets back from one call: the returned `int` and, where the
function has one, the content of its out-parameter. -/
inductive Reply where
  | Register (ret : Int) (user_id : Option Nat)
  | Login (ret : Int)
  | IsLogin (ret : Int)
  | GetOnlineUser (vec : List UserInfo)
deriving DecidableEq, Repr

/-- One call on the registry: the reply and the registry after the call. -/
def UserManager.step (c : StatusCodes) (m : UserManager) : Call → Reply × UserManager
  | Call.Register nick_name school passwd =>
    let r := UserManager.DealRegister c m nick_name school passwd
    (Reply.Register r.ret r.user_id, r.mgr)
  | Call.Login id passwd =>
    let r := UserManager.DealLogin c m id passwd
    (Reply.Login r.1, r.2)
  | Call.IsLogin user_id addr addr_len =>
    let r := UserManager.IsLogin c m user_id addr addr_len
    (Reply.IsLogin r.1, r.2)
  | Call.GetOnlineUser =>
    let r := UserManager.GetOnlineUser m []
    (Reply.GetOnlineUser r.1, r.2)

/-- A serial sequence of calls, first call first: the replies in call order and
the registry after the last call. -/
def UserManager.run (c : StatusCodes) : UserManager → List Call → List Reply × UserManager
  | m, [] => ([], m)
  | m, call :: rest =>
    let r := UserManager.step c m call
    let rs := UserManager.run c r.2 rest
    (r.1 :: rs.1, rs.2)

/-- The replies of the `DealRegister` calls among a list of replies, in order. -/
def Reply.registers : List Reply → List (Int × Option Nat)
  | [] => []
  | Reply.Register ret user_id :: rest => (ret, user_id) :: Reply.registers rest
  | _ :: rest => Reply.registers rest

/-- The number of `DealRegister` calls in a list of calls. -/
def Call.countRegister : List Call → Nat
  | [] => 0
  | Call.Register _ _ _ :: rest => Call.countRegister rest + 1
  | _ :: rest => Call.countRegister rest

/-- Every `DealRegister` call of the list has three non-empty strings. -/
def Call.registersNonEmpty : List Call → Prop
  | [] => True
  | Call.Register nick_name school passwd :: rest =>
    (nick_name ≠ "" ∧ school ≠ "" ∧ passwd ≠ "") ∧ Call.registersNonEmpty rest
  | _ :: rest => Call.registersNonEmpty rest

/-- The registry has handed out the ids below `j` and no other: the counter is
`j` modulo `2^32`, the map has `j` elements and its keys are the numbers
below `j`. -/
def UserManager.AllocatedUpTo (m : UserManager) (j : Nat) : Prop :=
  m.prepare_id_ = j % 2 ^ 32 ∧ m.user_map_.size = j ∧
    ∀ k, k ∈ m.user_map_.map Prod.fst ↔ k < j

/-- The number of successful `DealRegister` calls (return value 0) among a list
of replies. -/
def Reply.countRegisterOk : List Reply → Nat
  | [] => 0
  | Reply.Register ret _ :: rest =>
    if ret = 0 then Reply.countRegisterOk rest + 1 else Reply.countRegisterOk rest
  | _ :: rest => Reply.countRegisterOk rest

/-- The ids that the successful `DealRegister` calls stored through `user_id`,
in call order. -/
def Reply.handedOut : List Reply → List (Option Nat)
  | [] => []
  | Reply.Register ret user_id :: rest =>
    if ret = 0 then user_id :: Reply.handedOut rest else Reply.handedOut rest
  | _ :: rest => Reply.handedOut rest

/-- The two records agree on the fields that the constructor takes from its
arguments: id, nickname, school and password. -/
def UserInfo.sameProfile (u2 u : UserInfo) : Prop :=
  u2.user_id_ = u.user_id_ ∧ u2.nick_name_ = u.nick_name_ ∧ u2.school_ = u.school_ ∧
    u2.passwd_ = u.passwd_

/-- Every element of the map carries its own key in `user_id_`. -/
def UserManager.IdsConsistent (m : UserManager) : Prop :=
  ∀ e ∈ m.user_map_, e.2.user_id_ = e.1

/-- No element of the map and no element of `Online_user_` has status
`REGISTER_FAILED`. -/
def UserManager.NoRegisterFailed (c : StatusCodes) (m : UserManager) : Prop :=
  (∀ e ∈ m.user_map_, e.2.user_status_ ≠ c.REGISTER_FAILED) ∧
    ∀ o ∈ m.Online_user_, o.user_status_ ≠ c.REGISTER_FAILED

/-- Every element of `Online_user_` has status `ONLINE` and an id under which
the map holds a record with the same nickname, school and password. -/
def UserManager.OnlineWellFormed (c : StatusCodes) (m : UserManager) : Prop :=
  ∀ o ∈ m.Online_user_, o.user_status_ = c.ONLINE ∧
    ∃ u, m.user_map_.find o.user_id_ = some u ∧ u.nick_name_ = o.nick_name_ ∧
      u.school_ = o.school_ ∧ u.passwd_ = o.passwd_

/-! ## The mutex `map_lock_` along one call

The data of the registry does not depend on the mutex, but the order in which a
member function locks, touches the registry and unlocks can be read off its
text.  Each function below lists, for one call, these events in program order,
following the same branches as the function it belongs to. -/

/-- What a statement of a member function does with respect to `map_lock_`:
`pthread_mutex_lock(&map_lock_)`, `pthread_mutex_unlock(&map_lock_)`, or a read
or write of `user_map_` (an element of it included), `prepare_id_` or
`Online_user_`. -/
inductive LockEvent where
  | lock
  | unlock
  | access
deriving DecidableEq, Repr

/-- The events of `DealRegister`: nothing on the early return (line 127);
otherwise lock (130), the reads of `prepare_id_` (132, 133), the insert (138),
the increment (140), unlock (141). -/
def UserManager.DealRegister_events (nick_name school passwd : String) : List LockEvent :=
  if nick_name.length = 0 ∨ school.length = 0 ∨ passwd.length = 0 then []
  else
    [LockEvent.lock, LockEvent.access, LockEvent.access, LockEvent.access, LockEvent.access,
      LockEvent.unlock]

/-- The events of `DealLogin`: nothing on the early return (line 157); otherwise
lock (162) and `find` (163), then unlock (166) when the id is absent, else the
read of the password (171), the write of the status (174 or 180) and unlock
(175 or 181). -/
def UserManager.DealLogin_events (m : UserManager) (id : Nat) (passwd : String) :
    List LockEvent :=
  if passwd.length = 0 then []
  else
    match m.user_map_.find id with
    | none => [LockEvent.lock, LockEvent.access, LockEvent.unlock]
    | some u =>
      if u.GetPasswd ≠ passwd then
        [LockEvent.lock, LockEvent.access, LockEvent.access, LockEvent.access, LockEvent.unlock]
      else
        [LockEvent.lock, LockEvent.access, LockEvent.access, LockEvent.access, LockEvent.unlock]

/-- The events of `IsLogin`: lock (196) and `find` (197), then unlock (200) when
the id is absent; else the read of the status (207) and unlock (209) when it is
at most `LOGIN_FAILED`; else a second read of the status (212), on
`LOGIN_SUCCESS` the three writes to the record (216 to 218) and the
`push_back` (221), and unlock (223). -/
def UserManager.IsLogin_events (c : StatusCodes) (m : UserManager) (user_id : Nat) :
    List LockEvent :=
  match m.user_map_.find user_id with
  | none => [LockEvent.lock, LockEvent.access, LockEvent.unlock]
  | some u =>
    if u.GetUserStatus ≤ c.LOGIN_FAILED then
      [LockEvent.lock, LockEvent.access, LockEvent.access, LockEvent.unlock]
    else if u.GetUserStatus = c.LOGIN_SUCCESS then
      [LockEvent.lock, LockEvent.access, LockEvent.access, LockEvent.access, LockEvent.access,
        LockEvent.access, LockEvent.access, LockEvent.access, LockEvent.unlock]
    else
      [LockEvent.lock, LockEvent.access, LockEvent.access, LockEvent.access, LockEvent.unlock]

/-- The events of `GetOnlineUser`: its body is the one statement
`*vec = Online_user_` (line 229), a read of `Online_user_`. -/
def UserManager.GetOnlineUser_events : List LockEvent :=
  [LockEvent.access]

/-- The lock discipline on a list of events, `held` telling whether the caller
holds the mutex at the start: the mutex is locked only when not held, unlocked
only when held, the registry is touched only while it is held, and it is not
held at the end. -/
def LockEvent.disciplined : Bool → List LockEvent → Bool
  | held, [] => !held
  | held, LockEvent.lock :: rest => !held && LockEvent.disciplined true rest
  | held, LockEvent.unlock :: rest => held && LockEvent.disciplined false rest
  | held, LockEvent.access :: rest => held && LockEvent.disciplined held rest

/-- The events of one call on the registry. -/
def UserManager.events (c : StatusCodes) (m : UserManager) : Call → List LockEvent
  | Call.Register nick_name school passwd =>
    UserManager.DealRegister_events nick_name school passwd
  | Call.Login id passwd => UserManager.DealLogin_events m id passwd
  | Call.IsLogin user_id _ _ => UserManager.IsLogin_events c m user_id
  | Call.GetOnlineUser => UserManager.GetOnlineUser_events

/-! ## Facts about the map operations -/

theorem String.length_eq_zero_iff_eq_empty (s : String) : s.length = 0 ↔ s = "" := by
  constructor
  · intro h
    cases s with
    | mk l =>
      have hl : l = [] := List.length_eq_zero.mp h
      subst hl
      rfl
  · intro h
    subst h
    rfl

theorem UserMap.find_insert_self (m : UserMap) (id : Nat) (ui : UserInfo)
    (h : UserMap.find m id = none) : UserMap.find (UserMap.insert m id ui) id = some ui := by
  simp [UserMap.insert, h, UserMap.find]

theorem UserMap.find_insert_of_ne (m : UserMap) (id k : Nat) (ui : UserInfo) (hk : k ≠ id) :
    UserMap.find (UserMap.insert m id ui) k = UserMap.find m k := by
  unfold UserMap.insert
  cases UserMap.find m id with
  | some v => rfl
  | none => simp [UserMap.find, Ne.symm hk]

theorem UserMap.size_insert (m : UserMap) (id : Nat) (ui : UserInfo)
    (h : UserMap.find m id = none) :
    UserMap.size (UserMap.insert m id ui) = UserMap.size m + 1 := by
  simp [UserMap.insert, h, UserMap.size]

theorem UserMap.find_modify_self (m : UserMap) (id : Nat) (f : UserInfo → UserInfo)
    (u : UserInfo) (h : UserMap.find m id = some u) :
    UserMap.find (UserMap.modify m id f) id = some (f u) := by
  induction m with
  | nil => simp [UserMap.find] at h
  | cons e rest ih =>
    obtain ⟨k, v⟩ := e
    by_cases hk : k = id
    · simp [UserMap.find, hk] at h
      simp [UserMap.modify, UserMap.find, hk, h]
    · simp [UserMap.find, hk] at h
      simp [UserMap.modify, UserMap.find, hk, ih h]

theorem UserMap.find_modify_of_ne (m : UserMap) (id k : Nat) (f : UserInfo → UserInfo)
    (hk : k ≠ id) : UserMap.find (UserMap.modify m id f) k = UserMap.find m k := by
  induction m with
  | nil => rfl
  | cons e rest ih =>
    obtain ⟨j, v⟩ := e
    by_cases hj : j = id
    · subst hj
      have hjk : ¬ j = k := fun h => hk h.symm
      simp [UserMap.modify, UserMap.find, hjk]
    · by_cases hjk : j = k
      · subst hjk
        simp [UserMap.modify, UserMap.find, hj]
      · simp [UserMap.modify, UserMap.find, hj, hjk, ih]

theorem UserMap.keys_modify (m : UserMap) (id : Nat) (f : UserInfo → UserInfo) :
    (UserMap.modify m id f).map Prod.fst = m.map Prod.fst := by
  induction m with
  | nil => rfl
  | cons e rest ih =>
    obtain ⟨j, v⟩ := e
    by_cases hj : j = id
    · simp [UserMap.modify, hj]
    · simp only [UserMap.modify, hj, if_false, List.map_cons, ih]

theorem UserMap.size_modify (m : UserMap) (id : Nat) (f : UserInfo → UserInfo) :
    UserMap.size (UserMap.modify m id f) = UserMap.size m := by
  have h := congrArg List.length (UserMap.keys_modify m id f)
  simpa [UserMap.size] using h

/-! ## `DealRegister` -/

theorem UserManager.DealRegister_of_nonempty (c : StatusCodes) (m : UserManager)
    (nick_name school passwd : String) (hn : nick_name ≠ "") (hs : school ≠ "")
    (hp : passwd ≠ "") :
    UserManager.DealRegister c m nick_name school passwd =
      { ret := 0
        user_id := some m.prepare_id_
        mgr :=
          { m with
            user_map_ := m.user_map_.insert m.prepare_id_
              ((UserInfo.ctor c nick_name school passwd m.prepare_id_).SetUserStatus
                c.REGISTRE_SUCCESS)
            prepare_id_ := (m.prepare_id_ + 1) % 2 ^ 32 } } := by
  have h1 : ¬ nick_name.length = 0 := fun h => hn ((String.length_eq_zero_iff_eq_empty _).mp h)
  have h2 : ¬ school.length = 0 := fun h => hs ((String.length_eq_zero_iff_eq_empty _).mp h)
  have h3 : ¬ passwd.length = 0 := fun h => hp ((String.length_eq_zero_iff_eq_empty _).mp h)
  simp [UserManager.DealRegister, h1, h2, h3]

theorem UserManager.DealRegister_of_empty (c : StatusCodes) (m : UserManager)
    (nick_name school passwd : String) (h : nick_name = "" ∨ school = "" ∨ passwd = "") :
    UserManager.DealRegister c m nick_name school passwd =
      { ret := -1, user_id := none, mgr := m } := by
  have h1 : nick_name.length = 0 ∨ school.length = 0 ∨ passwd.length = 0 := by
    rcases h with h | h | h
    · exact Or.inl ((String.length_eq_zero_iff_eq_empty _).mpr h)
    · exact Or.inr (Or.inl ((String.length_eq_zero_iff_eq_empty _).mpr h))
    · exact Or.inr (Or.inr ((String.length_eq_zero_iff_eq_empty _).mpr h))
  simp only [UserManager.DealRegister, if_pos h1]

/-- C1 (as the code has it).  In a registry where `prepare_id_` is not yet a key
of `user_map_`, `DealRegister` with three non-empty strings returns 0 and
stores the old `prepare_id_` in `*user_id`; afterwards the map holds under that
id the record with the given nickname, school and password, that id, status
`REGISTRE_SUCCESS`, a zeroed address and address length 0; every other key
looks up as before and the map has one element more; `Online_user_` is
unchanged; and `prepare_id_` is the old value plus one modulo `2^32`, which is
the old value plus one whenever that is below `2^32`. -/
theorem UserManager.DealRegister_success (c : StatusCodes) (m : UserManager)
    (nick_name school passwd : String)
    (hfresh : m.user_map_.find m.prepare_id_ = none)
    (hn : nick_name ≠ "") (hs : school ≠ "") (hp : passwd ≠ "") :
    (UserManager.DealRegister c m nick_name school passwd).ret = 0 ∧
    (UserManager.DealRegister c m nick_name school passwd).user_id = some m.prepare_id_ ∧
    (UserManager.DealRegister c m nick_name school passwd).mgr.user_map_.find m.prepare_id_ =
      some { nick_name_ := nick_name, school_ := school, passwd_ := passwd,
             user_id_ := m.prepare_id_, user_status_ := c.REGISTRE_SUCCESS,
             addr_ := sockaddr_in.zero, addr_len_ := 0 } ∧
    (∀ k, k ≠ m.prepare_id_ →
      (UserManager.DealRegister c m nick_name school passwd).mgr.user_map_.find k =
        m.user_map_.find k) ∧
    (UserManager.DealRegister c m nick_name school passwd).mgr.user_map_.size =
      m.user_map_.size + 1 ∧
    (UserManager.DealRegister c m nick_name school passwd).mgr.Online_user_ = m.Online_user_ ∧
    (UserManager.DealRegister c m nick_name school passwd).mgr.prepare_id_ =
      (m.prepare_id_ + 1) % 2 ^ 32 ∧
    (m.prepare_id_ + 1 < 2 ^ 32 →
      (UserManager.DealRegister c m nick_name school passwd).mgr.prepare_id_ =
        m.prepare_id_ + 1) := by
  rw [UserManager.DealRegister_of_nonempty c m nick_name school passwd hn hs hp]
  refine ⟨rfl, rfl, ?_, ?_, ?_, rfl, rfl, ?_⟩
  · exact UserMap.find_insert_self _ _ _ hfresh
  · intro k hk
    exact UserMap.find_insert_of_ne _ _ _ _ hk
  · exact UserMap.size_insert _ _ _ hfresh
  · intro hlt
    exact Nat.mod_eq_of_lt hlt

/-- Witness of C1: the first registration on a new registry. -/
theorem UserManager.DealRegister_success_witness :
    (UserManager.DealRegister StatusCodes.enum UserManager.ctor "alice" "mit" "secret").ret = 0 ∧
    (UserManager.DealRegister StatusCodes.enum UserManager.ctor "alice" "mit" "secret").user_id =
      some 0 ∧
    (UserManager.DealRegister StatusCodes.enum UserManager.ctor "alice" "mit"
      "secret").mgr.prepare_id_ = 1 := by
  have h := UserManager.DealRegister_success StatusCodes.enum UserManager.ctor "alice" "mit"
    "secret" rfl (by decide) (by decide) (by decide)
  exact ⟨h.1, h.2.1, h.2.2.2.2.2.2.2 (by decide)⟩

/-- C2.  When one of the three strings is empty, `DealRegister` returns -1,
writes nothing through `user_id` and leaves the registry (map, its element
count, `prepare_id_`, `Online_user_`) exactly as it was; and it returns a
non-zero value only when one of the three strings is empty. -/
theorem UserManager.DealRegister_rejects_empty (c : StatusCodes) (m : UserManager)
    (nick_name school passwd : String) :
    ((nick_name = "" ∨ school = "" ∨ passwd = "") →
      (UserManager.DealRegister c m nick_name school passwd).ret = -1 ∧
      (UserManager.DealRegister c m nick_name school passwd).user_id = none ∧
      (UserManager.DealRegister c m nick_name school passwd).mgr = m ∧
      (UserManager.DealRegister c m nick_name school passwd).mgr.user_map_.size =
        m.user_map_.size) ∧
    ((UserManager.DealRegister c m nick_name school passwd).ret ≠ 0 →
      (nick_name = "" ∨ school = "" ∨ passwd = "")) := by
  constructor
  · intro h
    rw [UserManager.DealRegister_of_empty c m nick_name school passwd h]
    exact ⟨rfl, rfl, rfl, rfl⟩
  · intro hret
    by_contra hne
    push_neg at hne
    rw [UserManager.DealRegister_of_nonempty c m nick_name school passwd hne.1 hne.2.1
      hne.2.2] at hret
    exact hret rfl

/-- Witness of C2: an empty school on a new registry is rejected, and the
non-zero return value there points back at an empty string. -/
theorem UserManager.DealRegister_rejects_empty_witness :
    ((UserManager.DealRegister StatusCodes.enum UserManager.ctor "n" "" "p").ret = -1 ∧
      (UserManager.DealRegister StatusCodes.enum UserManager.ctor "n" "" "p").mgr =
        UserManager.ctor) ∧
    (UserManager.DealRegister StatusCodes.enum UserManager.ctor "n" "" "p").ret ≠ 0 ∧
    ("n" = "" ∨ "" = "" ∨ "p" = "") :=
  have h := UserManager.DealRegister_rejects_empty StatusCodes.enum UserManager.ctor "n" "" "p"
  ⟨⟨(h.1 (Or.inr (Or.inl rfl))).1, (h.1 (Or.inr (Or.inl rfl))).2.2.1⟩, by decide,
    h.2 (by decide)⟩

/-! ## `DealLogin` -/

theorem UserManager.DealLogin_of_found (c : StatusCodes) (m : UserManager) (id : Nat)
    (passwd : String) (u : UserInfo) (hp : passwd ≠ "") (hfind : m.user_map_.find id = some u) :
    UserManager.DealLogin c m id passwd =
      if u.passwd_ ≠ passwd then
        (-3, { m with
               user_map_ := m.user_map_.modify id (fun v => v.SetUserStatus c.LOGIN_FAILED) })
      else
        (0, { m with
              user_map_ := m.user_map_.modify id (fun v => v.SetUserStatus c.LOGIN_SUCCESS) }) := by
  have h1 : ¬ passwd.length = 0 := fun h => hp ((String.length_eq_zero_iff_eq_empty _).mp h)
  simp only [UserManager.DealLogin, if_neg h1, hfind, UserInfo.GetPasswd]

/-- C3.  `DealLogin` with an empty password returns -1 (invalid argument),
whether or not the id is registered; with a non-empty password and an id that
is not a key of `user_map_` it returns -2 (user not found); in both cases the
registry after the call is the registry before it. -/
theorem UserManager.DealLogin_early_failures (c : StatusCodes) (m : UserManager) (id : Nat)
    (passwd : String) :
    (passwd = "" → UserManager.DealLogin c m id passwd = (-1, m)) ∧
    (passwd ≠ "" → m.user_map_.find id = none →
      UserManager.DealLogin c m id passwd = (-2, m)) := by
  constructor
  · intro h
    subst h
    rfl
  · intro hp hfind
    have h1 : ¬ passwd.length = 0 := fun h => hp ((String.length_eq_zero_iff_eq_empty _).mp h)
    simp only [UserManager.DealLogin, if_neg h1, hfind]

/-- Witness of C3: on the registry holding only user 0, an empty password for
user 0 gives -1 and the password "x" for the unknown id 999 gives -2. -/
theorem UserManager.DealLogin_early_failures_witness :
    UserManager.DealLogin StatusCodes.enum
      (UserManager.DealRegister StatusCodes.enum UserManager.ctor "alice" "mit" "secret").mgr
      0 "" =
      (-1, (UserManager.DealRegister StatusCodes.enum UserManager.ctor "alice" "mit"
        "secret").mgr) ∧
    UserManager.DealLogin StatusCodes.enum
      (UserManager.DealRegister StatusCodes.enum UserManager.ctor "alice" "mit" "secret").mgr
      999 "x" =
      (-2, (UserManager.DealRegister StatusCodes.enum UserManager.ctor "alice" "mit"
        "secret").mgr) :=
  ⟨(UserManager.DealLogin_early_failures StatusCodes.enum _ 0 "").1 rfl,
    (UserManager.DealLogin_early_failures StatusCodes.enum _ 999 "x").2 (by decide)
      (by decide)⟩

/-- C4.  For a registered id (record `u`) and a non-empty password, `DealLogin`
returns 0 exactly when the password equals `u.passwd_`.  On a match the record
under the id becomes `u` with status `LOGIN_SUCCESS`; on a mismatch the call
returns -3 and the record becomes `u` with status `LOGIN_FAILED`.  Whatever the
status of `u` was, nothing else changes: the record keeps its other fields,
every other key looks up as before, the keys of the map, `prepare_id_` and
`Online_user_` are as before. -/
theorem UserManager.DealLogin_password_check (c : StatusCodes) (m : UserManager) (id : Nat)
    (passwd : String) (u : UserInfo)
    (hfind : m.user_map_.find id = some u) (hp : passwd ≠ "") :
    ((UserManager.DealLogin c m id passwd).1 = 0 ↔ passwd = u.passwd_) ∧
    (passwd = u.passwd_ →
      (UserManager.DealLogin c m id passwd).1 = 0 ∧
      (UserManager.DealLogin c m id passwd).2.user_map_.find id =
        some { u with user_status_ := c.LOGIN_SUCCESS }) ∧
    (passwd ≠ u.passwd_ →
      (UserManager.DealLogin c m id passwd).1 = -3 ∧
      (UserManager.DealLogin c m id passwd).2.user_map_.find id =
        some { u with user_status_ := c.LOGIN_FAILED }) ∧
    (∀ k, k ≠ id →
      (UserManager.DealLogin c m id passwd).2.user_map_.find k = m.user_map_.find k) ∧
    (UserManager.DealLogin c m id passwd).2.user_map_.map Prod.fst =
      m.user_map_.map Prod.fst ∧
    (UserManager.DealLogin c m id passwd).2.prepare_id_ = m.prepare_id_ ∧
    (UserManager.DealLogin c m id passwd).2.Online_user_ = m.Online_user_ := by
  rw [UserManager.DealLogin_of_found c m id passwd u hp hfind]
  by_cases heq : u.passwd_ = passwd
  · have hne : ¬ (u.passwd_ ≠ passwd) := fun h => h heq
    rw [if_neg hne]
    refine ⟨⟨fun _ => heq.symm, fun _ => rfl⟩, ?_, ?_, ?_, ?_, rfl, rfl⟩
    · intro _
      exact ⟨rfl, UserMap.find_modify_self _ _ _ _ hfind⟩
    · intro h
      exact absurd heq.symm h
    · intro k hk
      exact UserMap.find_modify_of_ne _ _ _ _ hk
    · exact UserMap.keys_modify _ _ _
  · rw [if_pos heq]
    refine ⟨⟨fun h => ?_, fun h => absurd h.symm heq⟩, ?_, ?_, ?_, ?_, rfl, rfl⟩
    · have h3 : (-3 : Int) = 0 := h
      exact absurd h3 (by decide)
    · intro h
      exact absurd h.symm heq
    · intro _
      exact ⟨rfl, UserMap.find_modify_self _ _ _ _ hfind⟩
    · intro k hk
      exact UserMap.find_modify_of_ne _ _ _ _ hk
    · exact UserMap.keys_modify _ _ _

/-- Witness of C4: after `DealRegister("alice", "mit", "secret")` gave id 0,
`DealLogin(0, "wrong")` returns -3 and leaves user 0 in `LOGIN_FAILED`. -/
theorem UserManager.DealLogin_password_check_witness :
    (UserManager.DealLogin StatusCodes.enum
      (UserManager.DealRegister StatusCodes.enum UserManager.ctor "alice" "mit" "secret").mgr
      0 "wrong").1 = -3 ∧
    (UserManager.DealLogin StatusCodes.enum
      (UserManager.DealRegister StatusCodes.enum UserManager.ctor "alice" "mit" "secret").mgr
      0 "wrong").2.user_map_.find 0 =
      some { nick_name_ := "alice", school_ := "mit", passwd_ := "secret", user_id_ := 0,
             user_status_ := 2, addr_ := sockaddr_in.zero, addr_len_ := 0 } :=
  (UserManager.DealLogin_password_check StatusCodes.enum
    (UserManager.DealRegister StatusCodes.enum UserManager.ctor "alice" "mit" "secret").mgr
    0 "wrong"
    { nick_name_ := "alice", school_ := "mit", passwd_ := "secret", user_id_ := 0,
      user_status_ := 1, addr_ := sockaddr_in.zero, addr_len_ := 0 }
    (by decide) (by decide)).2.2.1 (by decide)

/-! ## `IsLogin` -/

theorem UserManager.IsLogin_of_not_found (c : StatusCodes) (m : UserManager) (user_id : Nat)
    (addr : sockaddr_in) (addr_len : Nat) (hfind : m.user_map_.find user_id = none) :
    UserManager.IsLogin c m user_id addr addr_len = (-1, m) := by
  simp only [UserManager.IsLogin, hfind]

theorem UserManager.IsLogin_of_le_login_failed (c : StatusCodes) (m : UserManager)
    (user_id : Nat) (addr : sockaddr_in) (addr_len : Nat) (u : UserInfo)
    (hfind : m.user_map_.find user_id = some u) (hst : u.user_status_ ≤ c.LOGIN_FAILED) :
    UserManager.IsLogin c m user_id addr addr_len = (-1, m) := by
  simp only [UserManager.IsLogin, hfind, UserInfo.GetUserStatus, if_pos hst]

theorem UserManager.IsLogin_of_login_success (c : StatusCodes) (m : UserManager)
    (user_id : Nat) (addr : sockaddr_in) (addr_len : Nat) (u : UserInfo)
    (hfind : m.user_map_.find user_id = some u) (hlt : c.LOGIN_FAILED < c.LOGIN_SUCCESS)
    (hst : u.user_status_ = c.LOGIN_SUCCESS) :
    UserManager.IsLogin c m user_id addr addr_len =
      (0, { m with
            user_map_ := m.user_map_.modify user_id (UserInfo.promote c addr addr_len)
            Online_user_ := m.Online_user_ ++ [UserInfo.promote c addr addr_len u] }) := by
  have h1 : ¬ u.user_status_ ≤ c.LOGIN_FAILED := by rw [hst]; exact not_le.mpr hlt
  simp only [UserManager.IsLogin, hfind, UserInfo.GetUserStatus, if_neg h1, if_pos hst]

theorem UserManager.IsLogin_of_online (c : StatusCodes) (m : UserManager)
    (user_id : Nat) (addr : sockaddr_in) (addr_len : Nat) (u : UserInfo)
    (hfind : m.user_map_.find user_id = some u) (hc : c.Ordered)
    (hst : u.user_status_ = c.ONLINE) :
    UserManager.IsLogin c m user_id addr addr_len = (0, m) := by
  obtain ⟨_, _, h34, h45⟩ := hc
  have h1 : ¬ u.user_status_ ≤ c.LOGIN_FAILED := by
    rw [hst]; exact not_le.mpr (lt_trans h34 h45)
  have h2 : ¬ u.user_status_ = c.LOGIN_SUCCESS := by
    rw [hst]; exact ne_of_gt h45
  simp only [UserManager.IsLogin, hfind, UserInfo.GetUserStatus, if_neg h1, if_neg h2]

/-- C5.  With the status constants in the order the specification gives, for an
id whose record `u` has status `LOGIN_SUCCESS` and for every address and address
length, `IsLogin` returns 0; afterwards the record under the id is `u` with
status `ONLINE`, that address and that length (nickname, school, password and
id as before); `Online_user_` is the old vector with exactly one element pushed
at the back, equal to the updated record; every other key looks up as before,
and the keys of the map and `prepare_id_` are unchanged. -/
theorem UserManager.IsLogin_promotes (c : StatusCodes) (hc : c.Ordered) (m : UserManager)
    (user_id : Nat) (addr : sockaddr_in) (addr_len : Nat) (u : UserInfo)
    (hfind : m.user_map_.find user_id = some u) (hst : u.user_status_ = c.LOGIN_SUCCESS) :
    (UserManager.IsLogin c m user_id addr addr_len).1 = 0 ∧
    (UserManager.IsLogin c m user_id addr addr_len).2.user_map_.find user_id =
      some { u with user_status_ := c.ONLINE, addr_ := addr, addr_len_ := addr_len } ∧
    (UserManager.IsLogin c m user_id addr addr_len).2.Online_user_ =
      m.Online_user_ ++
        [{ u with user_status_ := c.ONLINE, addr_ := addr, addr_len_ := addr_len }] ∧
    (∀ k, k ≠ user_id →
      (UserManager.IsLogin c m user_id addr addr_len).2.user_map_.find k =
        m.user_map_.find k) ∧
    (UserManager.IsLogin c m user_id addr addr_len).2.user_map_.map Prod.fst =
      m.user_map_.map Prod.fst ∧
    (UserManager.IsLogin c m user_id addr addr_len).2.prepare_id_ = m.prepare_id_ := by
  rw [UserManager.IsLogin_of_login_success c m user_id addr addr_len u hfind hc.2.2.1 hst]
  refine ⟨rfl, ?_, rfl, ?_, ?_, rfl⟩
  · exact UserMap.find_modify_self _ _ _ _ hfind
  · intro k hk
    exact UserMap.find_modify_of_ne _ _ _ _ hk
  · exact UserMap.keys_modify _ _ _

/-- Witness of C5: user 0 registered and logged in, then the first datagram
from 127.0.0.1:8080. -/
theorem UserManager.IsLogin_promotes_witness :
    (UserManager.IsLogin StatusCodes.enum
      (UserManager.DealLogin StatusCodes.enum
        (UserManager.DealRegister StatusCodes.enum UserManager.ctor "alice" "mit" "secret").mgr
        0 "secret").2
      0 (sockaddr_in.mk 2 8080 2130706433 0) 16).1 = 0 ∧
    (UserManager.IsLogin StatusCodes.enum
      (UserManager.DealLogin StatusCodes.enum
        (UserManager.DealRegister StatusCodes.enum UserManager.ctor "alice" "mit" "secret").mgr
        0 "secret").2
      0 (sockaddr_in.mk 2 8080 2130706433 0)
      16).2.Online_user_ =
      [{ nick_name_ := "alice", school_ := "mit", passwd_ := "secret", user_id_ := 0,
         user_status_ := 4,
         addr_ := sockaddr_in.mk 2 8080 2130706433 0,
         addr_len_ := 16 }] :=
  have h := UserManager.IsLogin_promotes StatusCodes.enum (by decide)
    (UserManager.DealLogin StatusCodes.enum
      (UserManager.DealRegister StatusCodes.enum UserManager.ctor "alice" "mit" "secret").mgr
      0 "secret").2
    0 (sockaddr_in.mk 2 8080 2130706433 0) 16
    { nick_name_ := "alice", school_ := "mit", passwd_ := "secret", user_id_ := 0,
      user_status_ := 3, addr_ := sockaddr_in.zero, addr_len_ := 0 }
    (by decide) rfl
  ⟨h.1, h.2.2.1⟩

/-- C6.  `IsLogin` on an id that is not a key of `user_map_` returns -1, and so
it does on an id whose record has a status at or below `LOGIN_FAILED`; with the
status constants in the order the specification gives, these are the records
in `REGISTER_FAILED`, `REGISTRE_SUCCESS` or `LOGIN_FAILED`.  In each case the
registry after the call is the registry before it (the map with the record's
address, `prepare_id_` and `Online_user_`).  In particular the user that a
successful `DealRegister` has just created, for whom `DealLogin` was never
called, is rejected. -/
theorem UserManager.IsLogin_rejects (c : StatusCodes) (hc : c.Ordered) (m : UserManager)
    (user_id : Nat) (addr : sockaddr_in) (addr_len : Nat) :
    (m.user_map_.find user_id = none →
      UserManager.IsLogin c m user_id addr addr_len = (-1, m)) ∧
    (∀ u, m.user_map_.find user_id = some u → u.user_status_ ≤ c.LOGIN_FAILED →
      UserManager.IsLogin c m user_id addr addr_len = (-1, m)) ∧
    (∀ u, m.user_map_.find user_id = some u →
      (u.user_status_ = c.REGISTER_FAILED ∨ u.user_status_ = c.REGISTRE_SUCCESS ∨
        u.user_status_ = c.LOGIN_FAILED) →
      UserManager.IsLogin c m user_id addr addr_len = (-1, m)) ∧
    (∀ nick_name school passwd, m.user_map_.find m.prepare_id_ = none →
      nick_name ≠ "" → school ≠ "" → passwd ≠ "" →
      UserManager.IsLogin c (UserManager.DealRegister c m nick_name school passwd).mgr
        m.prepare_id_ addr addr_len =
        (-1, (UserManager.DealRegister c m nick_name school passwd).mgr)) := by
  obtain ⟨h12, h23, _, _⟩ := hc
  refine ⟨?_, ?_, ?_, ?_⟩
  · exact UserManager.IsLogin_of_not_found c m user_id addr addr_len
  · intro u hfind hst
    exact UserManager.IsLogin_of_le_login_failed c m user_id addr addr_len u hfind hst
  · intro u hfind hst
    apply UserManager.IsLogin_of_le_login_failed c m user_id addr addr_len u hfind
    rcases hst with h | h | h
    · rw [h]; exact le_of_lt (lt_trans h12 h23)
    · rw [h]; exact le_of_lt h23
    · rw [h]
  · intro nick_name school passwd hfresh hn hs hp
    rw [UserManager.DealRegister_of_nonempty c m nick_name school passwd hn hs hp]
    apply UserManager.IsLogin_of_le_login_failed c _ m.prepare_id_ addr addr_len _
      (UserMap.find_insert_self _ _ _ hfresh)
    exact le_of_lt h23

/-- Witness of C6: on the registry holding only the freshly registered user 0,
a datagram for the unknown id 7 and a datagram for user 0 are both rejected
with the registry unchanged. -/
theorem UserManager.IsLogin_rejects_witness :
    UserManager.IsLogin StatusCodes.enum
      (UserManager.DealRegister StatusCodes.enum UserManager.ctor "alice" "mit" "secret").mgr
      7 (sockaddr_in.mk 2 8080 2130706433 0) 16 =
      (-1, (UserManager.DealRegister StatusCodes.enum UserManager.ctor "alice" "mit"
        "secret").mgr) ∧
    UserManager.IsLogin StatusCodes.enum
      (UserManager.DealRegister StatusCodes.enum UserManager.ctor "alice" "mit" "secret").mgr
      0 (sockaddr_in.mk 2 8080 2130706433 0) 16 =
      (-1, (UserManager.DealRegister StatusCodes.enum UserManager.ctor "alice" "mit"
        "secret").mgr) :=
  ⟨(UserManager.IsLogin_rejects StatusCodes.enum (by decide)
      (UserManager.DealRegister StatusCodes.enum UserManager.ctor "alice" "mit" "secret").mgr
      7 (sockaddr_in.mk 2 8080 2130706433 0) 16).1
      (by decide),
    (UserManager.IsLogin_rejects StatusCodes.enum (by decide) UserManager.ctor
      0 (sockaddr_in.mk 2 8080 2130706433 0)
      16).2.2.2 "alice" "mit" "secret" rfl (by decide) (by decide) (by decide)⟩

theorem UserManager.run_IsLogin_of_online (c : StatusCodes) (hc : c.Ordered) (m : UserManager)
    (user_id : Nat) (u : UserInfo) (hfind : m.user_map_.find user_id = some u)
    (hst : u.user_status_ = c.ONLINE) (eps : List (sockaddr_in × Nat)) :
    UserManager.run c m (eps.map (fun e => Call.IsLogin user_id e.1 e.2)) =
      (eps.map (fun _ => Reply.IsLogin 0), m) := by
  induction eps with
  | nil => rfl
  | cons e rest ih =>
    simp only [List.map_cons, UserManager.run, UserManager.step,
      UserManager.IsLogin_of_online c m user_id e.1 e.2 u hfind hc hst, ih]

/-- C7.  With the status constants in the order the specification gives, for an
id whose record has status `ONLINE`, `IsLogin` with any address returns 0 and
the registry after the call equals the registry before it: the status stays
`ONLINE`, the stored address is not replaced, `Online_user_` gets no new
element.  Hence any serial sequence of such calls, with any addresses, returns
0 every time and ends in the registry it started from. -/
theorem UserManager.IsLogin_online_noop (c : StatusCodes) (hc : c.Ordered) (m : UserManager)
    (user_id : Nat) (u : UserInfo) (hfind : m.user_map_.find user_id = some u)
    (hst : u.user_status_ = c.ONLINE) :
    (∀ addr addr_len, UserManager.IsLogin c m user_id addr addr_len = (0, m)) ∧
    (∀ eps : List (sockaddr_in × Nat),
      UserManager.run c m (eps.map (fun e => Call.IsLogin user_id e.1 e.2)) =
        (eps.map (fun _ => Reply.IsLogin 0), m)) :=
  ⟨fun addr addr_len => UserManager.IsLogin_of_online c m user_id addr addr_len u hfind hc hst,
    UserManager.run_IsLogin_of_online c hc m user_id u hfind hst⟩

/-- Witness of C7: user 0 is online at 127.0.0.1:8080; a datagram from
127.0.0.1:9090 is accepted and changes nothing. -/
theorem UserManager.IsLogin_online_noop_witness :
    UserManager.IsLogin StatusCodes.enum
      (UserManager.run StatusCodes.enum UserManager.ctor
        [Call.Register "alice" "mit" "secret", Call.Login 0 "secret",
          Call.IsLogin 0 (sockaddr_in.mk 2 8080 2130706433 0) 16]).2
      0 (sockaddr_in.mk 2 9090 2130706433 0) 16 =
    (0, (UserManager.run StatusCodes.enum UserManager.ctor
        [Call.Register "alice" "mit" "secret", Call.Login 0 "secret",
          Call.IsLogin 0 (sockaddr_in.mk 2 8080 2130706433 0) 16]).2) :=
  (UserManager.IsLogin_online_noop StatusCodes.enum (by decide)
    (UserManager.run StatusCodes.enum UserManager.ctor
      [Call.Register "alice" "mit" "secret", Call.Login 0 "secret",
        Call.IsLogin 0 (sockaddr_in.mk 2 8080 2130706433 0) 16]).2
    0
    { nick_name_ := "alice", school_ := "mit", passwd_ := "secret", user_id_ := 0,
      user_status_ := 4,
      addr_ := sockaddr_in.mk 2 8080 2130706433 0,
      addr_len_ := 16 }
    (by decide) rfl).1
    (sockaddr_in.mk 2 9090 2130706433 0) 16

/-! ## The first-datagram scenario -/

/-- C8.  With the status constants in the order the specification gives, on a
newly constructed registry and for every non-empty nickname, school and
password and every two addresses, the calls `DealRegister` (which hands out
id 0), `DealLogin(0, passwd)`, `IsLogin(0, addr1, len1)`, `GetOnlineUser`,
`IsLogin(0, addr2, len2)`, `GetOnlineUser` all succeed; the first
`GetOnlineUser` yields exactly one entry, with status `ONLINE` and address
`(addr1, len1)`, and the second yields exactly that entry again, still with
`(addr1, len1)`. -/
theorem UserManager.first_datagram_scenario (c : StatusCodes) (hc : c.Ordered)
    (nick_name school passwd : String)
    (hn : nick_name ≠ "") (hs : school ≠ "") (hp : passwd ≠ "")
    (addr1 : sockaddr_in) (len1 : Nat) (addr2 : sockaddr_in) (len2 : Nat) :
    (UserManager.run c UserManager.ctor
      [Call.Register nick_name school passwd, Call.Login 0 passwd,
        Call.IsLogin 0 addr1 len1, Call.GetOnlineUser,
        Call.IsLogin 0 addr2 len2, Call.GetOnlineUser]).1 =
      [Reply.Register 0 (some 0), Reply.Login 0,
        Reply.IsLogin 0,
        Reply.GetOnlineUser
          [{ nick_name_ := nick_name, school_ := school, passwd_ := passwd, user_id_ := 0,
             user_status_ := c.ONLINE, addr_ := addr1, addr_len_ := len1 }],
        Reply.IsLogin 0,
        Reply.GetOnlineUser
          [{ nick_name_ := nick_name, school_ := school, passwd_ := passwd, user_id_ := 0,
             user_status_ := c.ONLINE, addr_ := addr1, addr_len_ := len1 }]] := by
  have hp0 : ¬ passwd.length = 0 := fun h => hp ((String.length_eq_zero_iff_eq_empty _).mp h)
  obtain ⟨_, _, h34, h45⟩ := hc
  have h1 : ¬ c.LOGIN_SUCCESS ≤ c.LOGIN_FAILED := not_le.mpr h34
  have h2 : ¬ c.ONLINE ≤ c.LOGIN_FAILED := not_le.mpr (lt_trans h34 h45)
  have h3 : ¬ c.ONLINE = c.LOGIN_SUCCESS := ne_of_gt h45
  simp [UserManager.run, UserManager.step,
    UserManager.DealRegister_of_nonempty c _ nick_name school passwd hn hs hp,
    UserManager.ctor, UserMap.insert, UserMap.find, UserMap.modify, UserManager.DealLogin, hp0,
    UserManager.IsLogin, UserManager.GetOnlineUser, UserInfo.ctor, UserInfo.SetUserStatus,
    UserInfo.GetPasswd, UserInfo.GetUserStatus, UserInfo.promote, UserInfo.SetaddrInfo,
    UserInfo.SetaddrLenInfo, h1, h2, h3]

/-- Witness of C8: alice of mit, first seen at 127.0.0.1:8080 and then at
127.0.0.1:9090. -/
theorem UserManager.first_datagram_scenario_witness :
    (UserManager.run StatusCodes.enum UserManager.ctor
      [Call.Register "alice" "mit" "secret", Call.Login 0 "secret",
        Call.IsLogin 0 (sockaddr_in.mk 2 8080 2130706433 0) 16,
        Call.GetOnlineUser,
        Call.IsLogin 0 (sockaddr_in.mk 2 9090 2130706433 0) 16,
        Call.GetOnlineUser]).1 =
      [Reply.Register 0 (some 0), Reply.Login 0,
        Reply.IsLogin 0,
        Reply.GetOnlineUser
          [{ nick_name_ := "alice", school_ := "mit", passwd_ := "secret", user_id_ := 0,
             user_status_ := 4,
             addr_ := sockaddr_in.mk 2 8080 2130706433 0,
             addr_len_ := 16 }],
        Reply.IsLogin 0,
        Reply.GetOnlineUser
          [{ nick_name_ := "alice", school_ := "mit", passwd_ := "secret", user_id_ := 0,
             user_status_ := 4,
             addr_ := sockaddr_in.mk 2 8080 2130706433 0,
             addr_len_ := 16 }]] :=
  UserManager.first_datagram_scenario StatusCodes.enum (by decide) "alice" "mit" "secret"
    (by decide) (by decide) (by decide)
    (sockaddr_in.mk 2 8080 2130706433 0) 16
    (sockaddr_in.mk 2 9090 2130706433 0) 16

/-! ## `GetOnlineUser` -/

/-- C10.  `GetOnlineUser` stores in `*vec` exactly the current `Online_user_`,
element for element and in the order of the pushes, whatever `vec` held before,
and leaves the registry unchanged; so a second call right after the first
yields the same sequence. -/
theorem UserManager.GetOnlineUser_pure_read (m : UserManager) (vec vec2 : List UserInfo) :
    (UserManager.GetOnlineUser m vec).1 = m.Online_user_ ∧
    (UserManager.GetOnlineUser m vec).2 = m ∧
    (UserManager.GetOnlineUser (UserManager.GetOnlineUser m vec).2 vec2).1 =
      (UserManager.GetOnlineUser m vec).1 :=
  ⟨rfl, rfl, rfl⟩

/-! ## Id allocation along a sequence of calls -/

theorem UserMap.find_eq_none_iff (m : UserMap) (k : Nat) :
    UserMap.find m k = none ↔ k ∉ m.map Prod.fst := by
  induction m with
  | nil => simp [UserMap.find]
  | cons e rest ih =>
    obtain ⟨j, v⟩ := e
    by_cases hj : j = k
    · simp [UserMap.find, hj]
    · have hkj : ¬ k = j := fun h => hj h.symm
      simp [UserMap.find, hj, hkj, ih]

theorem UserManager.DealLogin_prepare_id (c : StatusCodes) (m : UserManager) (id : Nat)
    (passwd : String) : (UserManager.DealLogin c m id passwd).2.prepare_id_ = m.prepare_id_ := by
  unfold UserManager.DealLogin
  split
  · rfl
  · split
    · rfl
    · dsimp only
      split <;> rfl

theorem UserManager.DealLogin_keys (c : StatusCodes) (m : UserManager) (id : Nat)
    (passwd : String) :
    (UserManager.DealLogin c m id passwd).2.user_map_.map Prod.fst =
      m.user_map_.map Prod.fst := by
  unfold UserManager.DealLogin
  split
  · rfl
  · split
    · rfl
    · dsimp only
      split <;> exact UserMap.keys_modify _ _ _

theorem UserManager.IsLogin_prepare_id (c : StatusCodes) (m : UserManager) (user_id : Nat)
    (addr : sockaddr_in) (addr_len : Nat) :
    (UserManager.IsLogin c m user_id addr addr_len).2.prepare_id_ = m.prepare_id_ := by
  unfold UserManager.IsLogin
  split
  · rfl
  · split
    · rfl
    · split <;> rfl

theorem UserManager.IsLogin_keys (c : StatusCodes) (m : UserManager) (user_id : Nat)
    (addr : sockaddr_in) (addr_len : Nat) :
    (UserManager.IsLogin c m user_id addr addr_len).2.user_map_.map Prod.fst =
      m.user_map_.map Prod.fst := by
  unfold UserManager.IsLogin
  split
  · rfl
  · split
    · rfl
    · split
      · exact UserMap.keys_modify _ _ _
      · rfl

theorem UserManager.AllocatedUpTo_of_keys_eq (m m2 : UserManager) (j : Nat)
    (hid : m2.prepare_id_ = m.prepare_id_)
    (hkeys : m2.user_map_.map Prod.fst = m.user_map_.map Prod.fst)
    (h : m.AllocatedUpTo j) : m2.AllocatedUpTo j := by
  obtain ⟨h1, h2, h3⟩ := h
  refine ⟨hid.trans h1, ?_, ?_⟩
  · have hl := congrArg List.length hkeys
    simp only [List.length_map] at hl
    exact hl.trans h2
  · intro k
    rw [hkeys]
    exact h3 k

theorem UserManager.AllocatedUpTo_ctor : UserManager.ctor.AllocatedUpTo 0 := by
  refine ⟨rfl, rfl, ?_⟩
  intro k
  simp [UserManager.ctor]

theorem UserManager.AllocatedUpTo_DealRegister (c : StatusCodes) (m : UserManager) (j : Nat)
    (nick_name school passwd : String)
    (hn : nick_name ≠ "") (hs : school ≠ "") (hp : passwd ≠ "")
    (h : m.AllocatedUpTo j) (hj : j < 2 ^ 32) :
    (UserManager.DealRegister c m nick_name school passwd).ret = 0 ∧
    (UserManager.DealRegister c m nick_name school passwd).user_id = some j ∧
    (UserManager.DealRegister c m nick_name school passwd).mgr.AllocatedUpTo (j + 1) := by
  obtain ⟨h1, h2, h3⟩ := h
  have hid : m.prepare_id_ = j := by rw [h1]; exact Nat.mod_eq_of_lt hj
  have hfresh : UserMap.find m.user_map_ j = none := by
    rw [UserMap.find_eq_none_iff, h3 j]
    exact lt_irrefl j
  rw [UserManager.DealRegister_of_nonempty c m nick_name school passwd hn hs hp, hid]
  refine ⟨rfl, rfl, rfl, ?_, ?_⟩
  · exact (UserMap.size_insert _ _ _ hfresh).trans (by rw [h2])
  · intro k
    simp only [UserMap.insert, hfresh, List.map_cons, List.mem_cons]
    rw [h3 k]
    omega

theorem UserManager.run_append (c : StatusCodes) (m : UserManager) (l1 l2 : List Call) :
    UserManager.run c m (l1 ++ l2) =
      ((UserManager.run c m l1).1 ++ (UserManager.run c (UserManager.run c m l1).2 l2).1,
        (UserManager.run c (UserManager.run c m l1).2 l2).2) := by
  induction l1 generalizing m with
  | nil => rfl
  | cons call rest ih =>
    show UserManager.run c m (call :: (rest ++ l2)) = _
    simp only [UserManager.run, ih, List.cons_append]

theorem Reply.registers_append (l1 l2 : List Reply) :
    Reply.registers (l1 ++ l2) = Reply.registers l1 ++ Reply.registers l2 := by
  induction l1 with
  | nil => rfl
  | cons r rest ih =>
    cases r <;> simp [Reply.registers, ih]

theorem UserManager.run_allocates (c : StatusCodes) (calls : List Call) :
    ∀ (m : UserManager) (j : Nat), m.AllocatedUpTo j → Call.registersNonEmpty calls →
      j + Call.countRegister calls ≤ 2 ^ 32 →
      Reply.registers (UserManager.run c m calls).1 =
        (List.range' j (Call.countRegister calls)).map (fun i => ((0 : Int), some i)) ∧
      (UserManager.run c m calls).2.AllocatedUpTo (j + Call.countRegister calls) := by
  induction calls with
  | nil =>
    intro m j h _ _
    exact ⟨rfl, h⟩
  | cons call rest ih =>
    intro m j h hne hle
    cases call with
    | Register nick_name school passwd =>
      obtain ⟨⟨hn, hs, hp⟩, hrest⟩ := hne
      simp only [Call.countRegister] at hle ⊢
      have hj : j < 2 ^ 32 := by omega
      obtain ⟨hret, huid, hnext⟩ :=
        UserManager.AllocatedUpTo_DealRegister c m j nick_name school passwd hn hs hp h hj
      obtain ⟨ih1, ih2⟩ := ih _ (j + 1) hnext hrest (by omega)
      simp only [UserManager.run, UserManager.step, Reply.registers, hret, huid, ih1]
      refine ⟨?_, ?_⟩
      · rw [List.range'_succ]
        rfl
      · have he : j + (Call.countRegister rest + 1) = j + 1 + Call.countRegister rest := by
          omega
        rw [he]
        exact ih2
    | Login id passwd =>
      have hnext := UserManager.AllocatedUpTo_of_keys_eq m _ j
        (UserManager.DealLogin_prepare_id c m id passwd)
        (UserManager.DealLogin_keys c m id passwd) h
      exact ih _ j hnext hne hle
    | IsLogin user_id addr addr_len =>
      have hnext := UserManager.AllocatedUpTo_of_keys_eq m _ j
        (UserManager.IsLogin_prepare_id c m user_id addr addr_len)
        (UserManager.IsLogin_keys c m user_id addr addr_len) h
      exact ih _ j hnext hne hle
    | GetOnlineUser =>
      exact ih _ j h hne hle

theorem Call.registersNonEmpty_replicate (n : Nat) (nick_name school passwd : String)
    (hn : nick_name ≠ "") (hs : school ≠ "") (hp : passwd ≠ "") :
    Call.registersNonEmpty (List.replicate n (Call.Register nick_name school passwd)) := by
  induction n with
  | zero => exact True.intro
  | succ n ih => exact ⟨⟨hn, hs, hp⟩, ih⟩

theorem Call.countRegister_replicate (n : Nat) (nick_name school passwd : String) :
    Call.countRegister (List.replicate n (Call.Register nick_name school passwd)) = n := by
  induction n with
  | zero => rfl
  | succ n ih => simp only [List.replicate_succ, Call.countRegister, ih]

theorem UserManager.run_replicate_past_wrap (c : StatusCodes) (n : Nat) (hn : n = 2 ^ 32)
    (nick_name school passwd : String)
    (hnn : nick_name ≠ "") (hs : school ≠ "") (hp : passwd ≠ "") :
    Reply.registers (UserManager.run c UserManager.ctor
      (List.replicate (n + 1) (Call.Register nick_name school passwd))).1 =
      (List.range n).map (fun i => ((0 : Int), some i)) ++ [(0, some 0)] ∧
    (UserManager.run c UserManager.ctor
      (List.replicate (n + 1) (Call.Register nick_name school passwd))).2.user_map_.size = n := by
  have hcount := Call.countRegister_replicate n nick_name school passwd
  obtain ⟨hreg, hid, hsize, hkeys⟩ :=
    UserManager.run_allocates c (List.replicate n (Call.Register nick_name school passwd))
      UserManager.ctor 0 UserManager.AllocatedUpTo_ctor
      (Call.registersNonEmpty_replicate n nick_name school passwd hnn hs hp)
      (by rw [hcount, hn]; omega)
  rw [hcount] at hreg
  rw [hcount, Nat.zero_add] at hid hsize
  simp only [hcount, Nat.zero_add] at hkeys
  have hid0 : (UserManager.run c UserManager.ctor
      (List.replicate n (Call.Register nick_name school passwd))).2.prepare_id_ = 0 := by
    rw [hid, hn]
    exact Nat.mod_self _
  have hfound : ∃ v, UserMap.find (UserManager.run c UserManager.ctor
      (List.replicate n (Call.Register nick_name school passwd))).2.user_map_ 0 = some v := by
    have h0 : (0 : Nat) < n := by rw [hn]; exact Nat.pos_pow_of_pos 32 (by decide)
    have hmem := (hkeys 0).mpr h0
    cases hf : UserMap.find (UserManager.run c UserManager.ctor
      (List.replicate n (Call.Register nick_name school passwd))).2.user_map_ 0 with
    | none => exact absurd hmem ((UserMap.find_eq_none_iff _ _).mp hf)
    | some v => exact ⟨v, rfl⟩
  obtain ⟨v, hv⟩ := hfound
  rw [List.replicate_succ', UserManager.run_append]
  simp only [UserManager.run, UserManager.step,
    UserManager.DealRegister_of_nonempty c _ nick_name school passwd hnn hs hp,
    Reply.registers_append, Reply.registers, hreg, hid0, UserMap.insert, hv, hsize,
    List.range_eq_range', and_self]

/-- C9 (as the code has it).  On a newly constructed registry, for every serial
sequence of calls in which all `DealRegister` calls have non-empty arguments
and there are at most `2^32` of them (whatever `DealLogin`, `IsLogin` and
`GetOnlineUser` calls come in between), the `DealRegister` calls all return 0
and hand out the ids 0, 1, ..., n-1 in call order, which are pairwise
distinct, and afterwards `user_map_` has exactly n elements, n being the
number of `DealRegister` calls. -/
theorem UserManager.sequential_ids (c : StatusCodes) (calls : List Call)
    (hne : Call.registersNonEmpty calls) (hle : Call.countRegister calls ≤ 2 ^ 32) :
    Reply.registers (UserManager.run c UserManager.ctor calls).1 =
      (List.range (Call.countRegister calls)).map (fun i => ((0 : Int), some i)) ∧
    ((Reply.registers (UserManager.run c UserManager.ctor calls).1).map Prod.snd).Nodup ∧
    (UserManager.run c UserManager.ctor calls).2.user_map_.size = Call.countRegister calls := by
  obtain ⟨hreg, _, hsize, _⟩ :=
    UserManager.run_allocates c calls UserManager.ctor 0 UserManager.AllocatedUpTo_ctor hne
      (by omega)
  rw [Nat.zero_add] at hsize
  rw [← List.range_eq_range'] at hreg
  refine ⟨hreg, ?_, hsize⟩
  rw [hreg, List.map_map]
  exact (List.nodup_range _).map (fun a b h => Option.some.inj h)

/-- Witness of C9: two registrations with a login and a datagram in between. -/
theorem UserManager.sequential_ids_witness :
    Reply.registers (UserManager.run StatusCodes.enum UserManager.ctor
      [Call.Register "alice" "mit" "secret", Call.Login 0 "secret",
        Call.IsLogin 0 (sockaddr_in.mk 2 8080 2130706433 0) 16, Call.GetOnlineUser,
        Call.Register "bob" "cmu" "hunter2"]).1 = [(0, some 0), (0, some 1)] ∧
    (UserManager.run StatusCodes.enum UserManager.ctor
      [Call.Register "alice" "mit" "secret", Call.Login 0 "secret",
        Call.IsLogin 0 (sockaddr_in.mk 2 8080 2130706433 0) 16, Call.GetOnlineUser,
        Call.Register "bob" "cmu" "hunter2"]).2.user_map_.size = 2 :=
  have h := UserManager.sequential_ids StatusCodes.enum
    [Call.Register "alice" "mit" "secret", Call.Login 0 "secret",
      Call.IsLogin 0 (sockaddr_in.mk 2 8080 2130706433 0) 16, Call.GetOnlineUser,
      Call.Register "bob" "cmu" "hunter2"]
    ⟨⟨by decide, by decide, by decide⟩, ⟨by decide, by decide, by decide⟩, True.intro⟩
    (by decide)
  ⟨h.1, h.2.2⟩

/-- C9 as stated fails past the range of the 32-bit counter.  On a newly
constructed registry, `2^32 + 1` calls `DealRegister("a", "b", "c")` all have
non-empty arguments; the last of them hands out id 0 again, so the ids handed
out are not 0, 1, ..., `2^32`, and the map ends with `2^32` elements, not
`2^32 + 1`. -/
theorem UserManager.sequential_ids_wrap :
    Call.registersNonEmpty (List.replicate (2 ^ 32 + 1) (Call.Register "a" "b" "c")) ∧
    Reply.registers (UserManager.run StatusCodes.enum UserManager.ctor
      (List.replicate (2 ^ 32 + 1) (Call.Register "a" "b" "c"))).1 =
      (List.range (2 ^ 32)).map (fun i => ((0 : Int), some i)) ++ [(0, some 0)] ∧
    Reply.registers (UserManager.run StatusCodes.enum UserManager.ctor
      (List.replicate (2 ^ 32 + 1) (Call.Register "a" "b" "c"))).1 ≠
      (List.range (2 ^ 32 + 1)).map (fun i => ((0 : Int), some i)) ∧
    (UserManager.run StatusCodes.enum UserManager.ctor
      (List.replicate (2 ^ 32 + 1) (Call.Register "a" "b" "c"))).2.user_map_.size ≠
      2 ^ 32 + 1 := by
  have h := UserManager.run_replicate_past_wrap StatusCodes.enum (2 ^ 32) rfl "a" "b" "c"
    (by decide) (by decide) (by decide)
  refine ⟨Call.registersNonEmpty_replicate _ "a" "b" "c" (by decide) (by decide) (by decide),
    h.1, ?_, ?_⟩
  · rw [h.1, List.range_succ, List.map_append]
    intro heq
    have h2 := List.append_cancel_left heq
    simp only [List.map_cons, List.map_nil, List.cons.injEq, Prod.mk.injEq, Option.some.injEq,
      and_true, true_and] at h2
    exact absurd h2 (by norm_num)
  · rw [h.2]
    exact Nat.ne_of_lt (Nat.lt_succ_self _)

theorem UserManager.run_replicate_before_wrap (c : StatusCodes) (n : Nat) (hn : n + 1 = 2 ^ 32)
    (nick_name school passwd : String)
    (hnn : nick_name ≠ "") (hs : school ≠ "") (hp : passwd ≠ "")
    (nick_name2 school2 passwd2 : String)
    (hnn2 : nick_name2 ≠ "") (hs2 : school2 ≠ "") (hp2 : passwd2 ≠ "") :
    (UserManager.run c UserManager.ctor
      (List.replicate n (Call.Register nick_name school passwd))).2.prepare_id_ = n ∧
    UserMap.find (UserManager.run c UserManager.ctor
      (List.replicate n (Call.Register nick_name school passwd))).2.user_map_ n = none ∧
    (UserManager.DealRegister c
      (UserManager.run c UserManager.ctor
        (List.replicate n (Call.Register nick_name school passwd))).2
      nick_name2 school2 passwd2).mgr.prepare_id_ = 0 := by
  have hcount := Call.countRegister_replicate n nick_name school passwd
  obtain ⟨_, hid, _, hkeys⟩ :=
    UserManager.run_allocates c (List.replicate n (Call.Register nick_name school passwd))
      UserManager.ctor 0 UserManager.AllocatedUpTo_ctor
      (Call.registersNonEmpty_replicate n nick_name school passwd hnn hs hp)
      (by rw [hcount]; omega)
  rw [hcount, Nat.zero_add] at hid
  simp only [hcount, Nat.zero_add] at hkeys
  have hid2 : (UserManager.run c UserManager.ctor
      (List.replicate n (Call.Register nick_name school passwd))).2.prepare_id_ = n := by
    rw [hid]
    exact Nat.mod_eq_of_lt (by omega)
  refine ⟨hid2, ?_, ?_⟩
  · rw [UserMap.find_eq_none_iff, hkeys n]
    exact lt_irrefl n
  · rw [UserManager.DealRegister_of_nonempty c _ nick_name2 school2 passwd2 hnn2 hs2 hp2]
    show ((UserManager.run c UserManager.ctor
      (List.replicate n (Call.Register nick_name school passwd))).2.prepare_id_ + 1) % 2 ^ 32 = 0
    rw [hid2, hn]
    exact Nat.mod_self _

theorem UserManager.DealRegister_at_max (c : StatusCodes) (n : Nat) (hn : n + 1 = 2 ^ 32)
    (nick_name school passwd : String)
    (hnn : nick_name ≠ "") (hs : school ≠ "") (hp : passwd ≠ "") :
    UserMap.find [] n = none ∧
    (UserManager.DealRegister c { user_map_ := [], prepare_id_ := n, Online_user_ := [] }
      nick_name school passwd).ret = 0 ∧
    (UserManager.DealRegister c { user_map_ := [], prepare_id_ := n, Online_user_ := [] }
      nick_name school passwd).user_id = some n ∧
    (UserManager.DealRegister c { user_map_ := [], prepare_id_ := n, Online_user_ := [] }
      nick_name school passwd).mgr.prepare_id_ = 0 ∧
    (UserManager.DealRegister c { user_map_ := [], prepare_id_ := n, Online_user_ := [] }
      nick_name school passwd).mgr.prepare_id_ ≠ n + 1 := by
  rw [UserManager.DealRegister_of_nonempty c _ nick_name school passwd hnn hs hp]
  have h0 : (n + 1) % 2 ^ 32 = 0 := by rw [hn]; exact Nat.mod_self _
  refine ⟨rfl, rfl, rfl, h0, ?_⟩
  show (n + 1) % 2 ^ 32 ≠ n + 1
  rw [h0]
  exact (Nat.succ_ne_zero n).symm

/-- C1 as stated fails where the 32-bit counter wraps.  In the registry with
`prepare_id_ = 4294967295` (the largest `uint32_t`) and that key not in the map,
`DealRegister("alice", "mit", "secret")` returns 0 and hands out id 4294967295,
and `prepare_id_` is then 0, not the old value plus one.  Such a registry is
the one that 4294967295 calls `DealRegister("a", "b", "c")` leave behind on a
newly constructed registry: its `prepare_id_` is 4294967295, that key is not in
its map, and one more `DealRegister` sets `prepare_id_` to 0. -/
theorem UserManager.DealRegister_wraps :
    (UserMap.find [] 4294967295 = none ∧
      (UserManager.DealRegister StatusCodes.enum
        { user_map_ := [], prepare_id_ := 4294967295, Online_user_ := [] }
        "alice" "mit" "secret").ret = 0 ∧
      (UserManager.DealRegister StatusCodes.enum
        { user_map_ := [], prepare_id_ := 4294967295, Online_user_ := [] }
        "alice" "mit" "secret").user_id = some 4294967295 ∧
      (UserManager.DealRegister StatusCodes.enum
        { user_map_ := [], prepare_id_ := 4294967295, Online_user_ := [] }
        "alice" "mit" "secret").mgr.prepare_id_ = 0 ∧
      (UserManager.DealRegister StatusCodes.enum
        { user_map_ := [], prepare_id_ := 4294967295, Online_user_ := [] }
        "alice" "mit" "secret").mgr.prepare_id_ ≠ 4294967295 + 1) ∧
    ((UserManager.run StatusCodes.enum UserManager.ctor
        (List.replicate 4294967295 (Call.Register "a" "b" "c"))).2.prepare_id_ = 4294967295 ∧
      UserMap.find (UserManager.run StatusCodes.enum UserManager.ctor
        (List.replicate 4294967295 (Call.Register "a" "b" "c"))).2.user_map_ 4294967295 =
        none ∧
      (UserManager.DealRegister StatusCodes.enum
        (UserManager.run StatusCodes.enum UserManager.ctor
          (List.replicate 4294967295 (Call.Register "a" "b" "c"))).2
        "alice" "mit" "secret").mgr.prepare_id_ = 0) :=
  have hn : 4294967295 + 1 = 2 ^ 32 := by norm_num
  ⟨UserManager.DealRegister_at_max StatusCodes.enum 4294967295 hn "alice" "mit" "secret"
      (by decide) (by decide) (by decide),
    UserManager.run_replicate_before_wrap StatusCodes.enum 4294967295 hn "a" "b" "c"
      (by decide) (by decide) (by decide) "alice" "mit" "secret"
      (by decide) (by decide) (by decide)⟩

/-! ## Leaving `ONLINE` -/

theorem UserMap.find_insert_of_found (m : UserMap) (id k : Nat) (ui u : UserInfo)
    (h : UserMap.find m k = some u) : UserMap.find (UserMap.insert m id ui) k = some u := by
  by_cases hk : k = id
  · subst hk
    simp only [UserMap.insert, h]
  · rw [UserMap.find_insert_of_ne m id k ui hk, h]

theorem UserManager.DealRegister_find_of_found (c : StatusCodes) (m : UserManager)
    (nick_name school passwd : String) (k : Nat) (u : UserInfo)
    (h : m.user_map_.find k = some u) :
    (UserManager.DealRegister c m nick_name school passwd).mgr.user_map_.find k = some u := by
  by_cases he : nick_name = "" ∨ school = "" ∨ passwd = ""
  · rw [UserManager.DealRegister_of_empty c m nick_name school passwd he]
    exact h
  · push_neg at he
    rw [UserManager.DealRegister_of_nonempty c m nick_name school passwd he.1 he.2.1 he.2.2]
    exact UserMap.find_insert_of_found _ _ _ _ _ h

theorem UserManager.DealLogin_find_of_ne (c : StatusCodes) (m : UserManager) (id : Nat)
    (passwd : String) (k : Nat) (hk : k ≠ id) :
    (UserManager.DealLogin c m id passwd).2.user_map_.find k = m.user_map_.find k := by
  unfold UserManager.DealLogin
  split
  · rfl
  · split
    · rfl
    · dsimp only
      split <;> exact UserMap.find_modify_of_ne _ _ _ _ hk

theorem UserManager.IsLogin_find_of_ne (c : StatusCodes) (m : UserManager) (user_id : Nat)
    (addr : sockaddr_in) (addr_len : Nat) (k : Nat) (hk : k ≠ user_id) :
    (UserManager.IsLogin c m user_id addr addr_len).2.user_map_.find k =
      m.user_map_.find k := by
  unfold UserManager.IsLogin
  split
  · rfl
  · split
    · rfl
    · split
      · exact UserMap.find_modify_of_ne _ _ _ _ hk
      · rfl

/-- C11 (as the code has it).  With the status constants in the order the
specification gives, let the record `u` under `id` have status `ONLINE`.  After
any `DealRegister`, any `IsLogin` (for this or another id), any
`GetOnlineUser`, and any `DealLogin` that names another id or carries an empty
password, the record under `id` is still `u`, so still `ONLINE`.  A `DealLogin`
for `id` itself with a non-empty password does leave `ONLINE`: afterwards the
record is `u` with status `LOGIN_SUCCESS` when the password matches and `u`
with status `LOGIN_FAILED` when it does not. -/
theorem UserManager.online_kept_except_by_login (c : StatusCodes) (hc : c.Ordered)
    (m : UserManager) (id : Nat) (u : UserInfo)
    (hfind : m.user_map_.find id = some u) (hst : u.user_status_ = c.ONLINE) :
    (∀ nick_name school passwd,
      (UserManager.DealRegister c m nick_name school passwd).mgr.user_map_.find id = some u) ∧
    (∀ user_id addr addr_len,
      (UserManager.IsLogin c m user_id addr addr_len).2.user_map_.find id = some u) ∧
    (∀ vec, (UserManager.GetOnlineUser m vec).2.user_map_.find id = some u) ∧
    (∀ id2 passwd, (id2 ≠ id ∨ passwd = "") →
      (UserManager.DealLogin c m id2 passwd).2.user_map_.find id = some u) ∧
    (∀ passwd, passwd ≠ "" → passwd = u.passwd_ →
      (UserManager.DealLogin c m id passwd).2.user_map_.find id =
        some { u with user_status_ := c.LOGIN_SUCCESS } ∧
      c.LOGIN_SUCCESS ≠ c.ONLINE) ∧
    (∀ passwd, passwd ≠ "" → passwd ≠ u.passwd_ →
      (UserManager.DealLogin c m id passwd).2.user_map_.find id =
        some { u with user_status_ := c.LOGIN_FAILED } ∧
      c.LOGIN_FAILED ≠ c.ONLINE) := by
  have h34 := hc.2.2.1
  have h45 := hc.2.2.2
  refine ⟨?_, ?_, ?_, ?_, ?_, ?_⟩
  · intro nick_name school passwd
    exact UserManager.DealRegister_find_of_found c m nick_name school passwd id u hfind
  · intro user_id addr addr_len
    by_cases hk : id = user_id
    · subst hk
      rw [UserManager.IsLogin_of_online c m id addr addr_len u hfind hc hst]
      exact hfind
    · rw [UserManager.IsLogin_find_of_ne c m user_id addr addr_len id hk, hfind]
  · intro vec
    exact hfind
  · intro id2 passwd h
    rcases h with h | h
    · rw [UserManager.DealLogin_find_of_ne c m id2 passwd id (Ne.symm h), hfind]
    · subst h
      exact hfind
  · intro passwd hp heq
    rw [UserManager.DealLogin_of_found c m id passwd u hp hfind,
      if_neg (fun hne : u.passwd_ ≠ passwd => hne heq.symm)]
    exact ⟨UserMap.find_modify_self _ _ _ _ hfind, ne_of_lt h45⟩
  · intro passwd hp hne
    rw [UserManager.DealLogin_of_found c m id passwd u hp hfind,
      if_pos (fun heq : u.passwd_ = passwd => hne heq.symm)]
    exact ⟨UserMap.find_modify_self _ _ _ _ hfind, ne_of_lt (lt_trans h34 h45)⟩

/-- Witness of C11: user 0 is online; a second registration leaves the record
as it is, and a login of user 0 with a wrong password puts it in
`LOGIN_FAILED`. -/
theorem UserManager.online_kept_except_by_login_witness :
    (UserManager.DealRegister StatusCodes.enum
      (UserManager.run StatusCodes.enum UserManager.ctor
        [Call.Register "alice" "mit" "secret", Call.Login 0 "secret",
          Call.IsLogin 0 (sockaddr_in.mk 2 8080 2130706433 0) 16]).2
      "bob" "cmu" "hunter2").mgr.user_map_.find 0 =
      some { nick_name_ := "alice", school_ := "mit", passwd_ := "secret", user_id_ := 0,
             user_status_ := 4, addr_ := sockaddr_in.mk 2 8080 2130706433 0,
             addr_len_ := 16 } ∧
    (UserManager.DealLogin StatusCodes.enum
      (UserManager.run StatusCodes.enum UserManager.ctor
        [Call.Register "alice" "mit" "secret", Call.Login 0 "secret",
          Call.IsLogin 0 (sockaddr_in.mk 2 8080 2130706433 0) 16]).2
      0 "wrong").2.user_map_.find 0 =
      some { nick_name_ := "alice", school_ := "mit", passwd_ := "secret", user_id_ := 0,
             user_status_ := 2, addr_ := sockaddr_in.mk 2 8080 2130706433 0,
             addr_len_ := 16 } :=
  have h := UserManager.online_kept_except_by_login StatusCodes.enum (by decide)
    (UserManager.run StatusCodes.enum UserManager.ctor
      [Call.Register "alice" "mit" "secret", Call.Login 0 "secret",
        Call.IsLogin 0 (sockaddr_in.mk 2 8080 2130706433 0) 16]).2
    0
    { nick_name_ := "alice", school_ := "mit", passwd_ := "secret", user_id_ := 0,
      user_status_ := 4, addr_ := sockaddr_in.mk 2 8080 2130706433 0, addr_len_ := 16 }
    (by decide) rfl
  ⟨h.1 "bob" "cmu" "hunter2", (h.2.2.2.2.2 "wrong" (by decide) (by decide)).1⟩

/-- C11 as stated fails for `DealLogin`.  User 0 registers with password
"secret", logs in and sends a first datagram, which makes the record `ONLINE`
(4 in the enumeration counted from zero).  `DealLogin(0, "wrong")` then returns
-3 and leaves the record in `LOGIN_FAILED` (2); `DealLogin(0, "secret")`
instead returns 0 and leaves it in `LOGIN_SUCCESS` (3). -/
theorem UserManager.login_leaves_online :
    ((UserManager.run StatusCodes.enum UserManager.ctor
        [Call.Register "alice" "mit" "secret", Call.Login 0 "secret",
          Call.IsLogin 0 (sockaddr_in.mk 2 8080 2130706433 0) 16]).2.user_map_.find 0).map
      UserInfo.GetUserStatus = some StatusCodes.enum.ONLINE ∧
    (UserManager.DealLogin StatusCodes.enum
      (UserManager.run StatusCodes.enum UserManager.ctor
        [Call.Register "alice" "mit" "secret", Call.Login 0 "secret",
          Call.IsLogin 0 (sockaddr_in.mk 2 8080 2130706433 0) 16]).2
      0 "wrong").1 = -3 ∧
    ((UserManager.DealLogin StatusCodes.enum
      (UserManager.run StatusCodes.enum UserManager.ctor
        [Call.Register "alice" "mit" "secret", Call.Login 0 "secret",
          Call.IsLogin 0 (sockaddr_in.mk 2 8080 2130706433 0) 16]).2
      0 "wrong").2.user_map_.find 0).map UserInfo.GetUserStatus = some 2 ∧
    (UserManager.DealLogin StatusCodes.enum
      (UserManager.run StatusCodes.enum UserManager.ctor
        [Call.Register "alice" "mit" "secret", Call.Login 0 "secret",
          Call.IsLogin 0 (sockaddr_in.mk 2 8080 2130706433 0) 16]).2
      0 "secret").1 = 0 ∧
    ((UserManager.DealLogin StatusCodes.enum
      (UserManager.run StatusCodes.enum UserManager.ctor
        [Call.Register "alice" "mit" "secret", Call.Login 0 "secret",
          Call.IsLogin 0 (sockaddr_in.mk 2 8080 2130706433 0) 16]).2
      0 "secret").2.user_map_.find 0).map UserInfo.GetUserStatus = some 3 ∧
    StatusCodes.enum.ONLINE = 4 := by
  decide

/-! ## The return values of `IsLogin` -/

theorem UserManager.IsLogin_of_gt_login_failed (c : StatusCodes) (m : UserManager)
    (user_id : Nat) (addr : sockaddr_in) (addr_len : Nat) (u : UserInfo)
    (hfind : m.user_map_.find user_id = some u) (hst : ¬ u.user_status_ ≤ c.LOGIN_FAILED) :
    (UserManager.IsLogin c m user_id addr addr_len).1 = 0 := by
  simp only [UserManager.IsLogin, hfind, UserInfo.GetUserStatus, if_neg hst]
  split <;> rfl

/-- C12 (as the code has it).  `IsLogin` returns -1 for an id that is not a key
of `user_map_` and returns the same -1 for a registered id whose status is at
most `LOGIN_FAILED`, so the return value does not tell the two failures apart;
it differs from 0, the value returned for every registered id whose status is
above `LOGIN_FAILED`. -/
theorem UserManager.IsLogin_failure_codes (c : StatusCodes) (m : UserManager)
    (id1 id2 : Nat) (addr1 addr2 : sockaddr_in) (len1 len2 : Nat) (u : UserInfo)
    (h1 : m.user_map_.find id1 = none) (h2 : m.user_map_.find id2 = some u)
    (hst : u.user_status_ ≤ c.LOGIN_FAILED) :
    (UserManager.IsLogin c m id1 addr1 len1).1 = -1 ∧
    (UserManager.IsLogin c m id2 addr2 len2).1 = -1 ∧
    (UserManager.IsLogin c m id1 addr1 len1).1 = (UserManager.IsLogin c m id2 addr2 len2).1 ∧
    (UserManager.IsLogin c m id1 addr1 len1).1 ≠ 0 ∧
    (∀ id3 addr3 len3 u3, m.user_map_.find id3 = some u3 →
      ¬ u3.user_status_ ≤ c.LOGIN_FAILED →
      (UserManager.IsLogin c m id3 addr3 len3).1 = 0) := by
  rw [UserManager.IsLogin_of_not_found c m id1 addr1 len1 h1,
    UserManager.IsLogin_of_le_login_failed c m id2 addr2 len2 u h2 hst]
  refine ⟨rfl, rfl, rfl, ?_, ?_⟩
  · show (-1 : Int) ≠ 0
    decide
  intro id3 addr3 len3 u3 h3 hst3
  exact UserManager.IsLogin_of_gt_login_failed c m id3 addr3 len3 u3 h3 hst3

/-- Witness of C12: with only the freshly registered user 0 in the registry, a
datagram for the unknown id 7 and a datagram for user 0 both get -1. -/
theorem UserManager.IsLogin_failure_codes_witness :
    (UserManager.IsLogin StatusCodes.enum
      (UserManager.DealRegister StatusCodes.enum UserManager.ctor "alice" "mit" "secret").mgr
      7 (sockaddr_in.mk 2 8080 2130706433 0) 16).1 = -1 ∧
    (UserManager.IsLogin StatusCodes.enum
      (UserManager.DealRegister StatusCodes.enum UserManager.ctor "alice" "mit" "secret").mgr
      0 (sockaddr_in.mk 2 9090 2130706433 0) 16).1 = -1 :=
  have h := UserManager.IsLogin_failure_codes StatusCodes.enum
    (UserManager.DealRegister StatusCodes.enum UserManager.ctor "alice" "mit" "secret").mgr
    7 0 (sockaddr_in.mk 2 8080 2130706433 0) (sockaddr_in.mk 2 9090 2130706433 0) 16 16
    { nick_name_ := "alice", school_ := "mit", passwd_ := "secret", user_id_ := 0,
      user_status_ := 1, addr_ := sockaddr_in.zero, addr_len_ := 0 }
    (by decide) (by decide) (by decide)
  ⟨h.1, h.2.1⟩

/-- C12 as stated fails: the two failures of `IsLogin` carry one and the same
return value.  In the registry that holds only the freshly registered user 0
(status `REGISTRE_SUCCESS`), id 5 is not a key and `IsLogin(5, ...)` returns -1;
id 0 is a key with a status at most `LOGIN_FAILED` and `IsLogin(0, ...)`
returns -1 as well. -/
theorem UserManager.IsLogin_same_code :
    UserMap.find
      (UserManager.DealRegister StatusCodes.enum UserManager.ctor "alice" "mit"
        "secret").mgr.user_map_ 5 = none ∧
    (UserMap.find
      (UserManager.DealRegister StatusCodes.enum UserManager.ctor "alice" "mit"
        "secret").mgr.user_map_ 0).map UserInfo.GetUserStatus =
      some StatusCodes.enum.REGISTRE_SUCCESS ∧
    StatusCodes.enum.REGISTRE_SUCCESS ≤ StatusCodes.enum.LOGIN_FAILED ∧
    (UserManager.IsLogin StatusCodes.enum
      (UserManager.DealRegister StatusCodes.enum UserManager.ctor "alice" "mit" "secret").mgr
      5 (sockaddr_in.mk 2 8080 2130706433 0) 16).1 = -1 ∧
    (UserManager.IsLogin StatusCodes.enum
      (UserManager.DealRegister StatusCodes.enum UserManager.ctor "alice" "mit" "secret").mgr
      0 (sockaddr_in.mk 2 8080 2130706433 0) 16).1 = -1 ∧
    ¬ ((UserManager.IsLogin StatusCodes.enum
        (UserManager.DealRegister StatusCodes.enum UserManager.ctor "alice" "mit" "secret").mgr
        5 (sockaddr_in.mk 2 8080 2130706433 0) 16).1 ≠
      (UserManager.IsLogin StatusCodes.enum
        (UserManager.DealRegister StatusCodes.enum UserManager.ctor "alice" "mit" "secret").mgr
        0 (sockaddr_in.mk 2 8080 2130706433 0) 16).1) := by
  decide

/-! ## The counter `prepare_id_` -/

theorem UserManager.DealRegister_prepare_id_of_fail (c : StatusCodes) (m : UserManager)
    (nick_name school passwd : String)
    (h : (UserManager.DealRegister c m nick_name school passwd).ret ≠ 0) :
    (UserManager.DealRegister c m nick_name school passwd).mgr = m := by
  by_cases he : nick_name = "" ∨ school = "" ∨ passwd = ""
  · rw [UserManager.DealRegister_of_empty c m nick_name school passwd he]
  · push_neg at he
    rw [UserManager.DealRegister_of_nonempty c m nick_name school passwd he.1 he.2.1
      he.2.2] at h
    exact absurd rfl h

theorem UserManager.DealRegister_prepare_id_of_ok (c : StatusCodes) (m : UserManager)
    (nick_name school passwd : String)
    (h : (UserManager.DealRegister c m nick_name school passwd).ret = 0) :
    (UserManager.DealRegister c m nick_name school passwd).mgr.prepare_id_ =
      (m.prepare_id_ + 1) % 2 ^ 32 ∧
    (UserManager.DealRegister c m nick_name school passwd).user_id = some m.prepare_id_ := by
  by_cases he : nick_name = "" ∨ school = "" ∨ passwd = ""
  · rw [UserManager.DealRegister_of_empty c m nick_name school passwd he] at h
    have h1 : (-1 : Int) = 0 := h
    exact absurd h1 (by decide)
  · push_neg at he
    rw [UserManager.DealRegister_of_nonempty c m nick_name school passwd he.1 he.2.1 he.2.2]
    exact ⟨rfl, rfl⟩

theorem UserManager.run_allocates_ok (c : StatusCodes) (calls : List Call) :
    ∀ (m : UserManager) (j : Nat), m.AllocatedUpTo j →
      j + Reply.countRegisterOk (UserManager.run c m calls).1 ≤ 2 ^ 32 →
      Reply.handedOut (UserManager.run c m calls).1 =
        (List.range' j (Reply.countRegisterOk (UserManager.run c m calls).1)).map some ∧
      (UserManager.run c m calls).2.AllocatedUpTo
        (j + Reply.countRegisterOk (UserManager.run c m calls).1) := by
  induction calls with
  | nil =>
    intro m j h _
    exact ⟨rfl, h⟩
  | cons call rest ih =>
    intro m j h hle
    cases call with
    | Register nick_name school passwd =>
      by_cases he : nick_name = "" ∨ school = "" ∨ passwd = ""
      · have hr := UserManager.DealRegister_of_empty c m nick_name school passwd he
        have hneg : ¬ ((-1 : Int) = 0) := by decide
        simp only [UserManager.run, UserManager.step, hr, Reply.countRegisterOk,
          Reply.handedOut, hneg, if_false] at hle ⊢
        exact ih m j h hle
      · push_neg at he
        have hret0 : (UserManager.DealRegister c m nick_name school passwd).ret = 0 := by
          rw [UserManager.DealRegister_of_nonempty c m nick_name school passwd he.1 he.2.1
            he.2.2]
        simp only [UserManager.run, UserManager.step, hret0, Reply.countRegisterOk,
          Reply.handedOut, if_true] at hle ⊢
        have hj : j < 2 ^ 32 := by omega
        obtain ⟨_, huid, hnext⟩ :=
          UserManager.AllocatedUpTo_DealRegister c m j nick_name school passwd he.1 he.2.1
            he.2.2 h hj
        obtain ⟨ih1, ih2⟩ := ih _ (j + 1) hnext (by omega)
        refine ⟨?_, ?_⟩
        · rw [huid, ih1, List.range'_succ]
          rfl
        · have hadd : j + (Reply.countRegisterOk (UserManager.run c
              (UserManager.DealRegister c m nick_name school passwd).mgr rest).1 + 1) =
              j + 1 + Reply.countRegisterOk (UserManager.run c
                (UserManager.DealRegister c m nick_name school passwd).mgr rest).1 := by
            omega
          rw [hadd]
          exact ih2
    | Login id passwd =>
      have hnext := UserManager.AllocatedUpTo_of_keys_eq m _ j
        (UserManager.DealLogin_prepare_id c m id passwd)
        (UserManager.DealLogin_keys c m id passwd) h
      exact ih _ j hnext hle
    | IsLogin user_id addr addr_len =>
      have hnext := UserManager.AllocatedUpTo_of_keys_eq m _ j
        (UserManager.IsLogin_prepare_id c m user_id addr addr_len)
        (UserManager.IsLogin_keys c m user_id addr addr_len) h
      exact ih _ j hnext hle
    | GetOnlineUser =>
      exact ih _ j h hle

/-- C13 (as the code has it).  A successful `DealRegister` sets `prepare_id_` to
the old value plus one modulo `2^32`; whenever the old value plus one is below
`2^32` that is the old value plus one, strictly greater than before.  A failed
`DealRegister`, `DealLogin`, `IsLogin` and `GetOnlineUser` leave `prepare_id_`
as it is.  Along any serial sequence of calls on a newly constructed registry
with at most `2^32` successful `DealRegister` calls, the ids handed out are
0, 1, 2, ... in call order, so no id is handed out twice. -/
theorem UserManager.prepare_id_increases (c : StatusCodes) (m : UserManager) :
    (∀ nick_name school passwd,
      (UserManager.DealRegister c m nick_name school passwd).ret = 0 →
      (UserManager.DealRegister c m nick_name school passwd).mgr.prepare_id_ =
        (m.prepare_id_ + 1) % 2 ^ 32 ∧
      (m.prepare_id_ + 1 < 2 ^ 32 →
        (UserManager.DealRegister c m nick_name school passwd).mgr.prepare_id_ =
          m.prepare_id_ + 1 ∧
        m.prepare_id_ <
          (UserManager.DealRegister c m nick_name school passwd).mgr.prepare_id_)) ∧
    (∀ nick_name school passwd,
      (UserManager.DealRegister c m nick_name school passwd).ret ≠ 0 →
      (UserManager.DealRegister c m nick_name school passwd).mgr.prepare_id_ =
        m.prepare_id_) ∧
    (∀ id passwd, (UserManager.DealLogin c m id passwd).2.prepare_id_ = m.prepare_id_) ∧
    (∀ user_id addr addr_len,
      (UserManager.IsLogin c m user_id addr addr_len).2.prepare_id_ = m.prepare_id_) ∧
    (∀ vec, (UserManager.GetOnlineUser m vec).2.prepare_id_ = m.prepare_id_) ∧
    (∀ calls, Reply.countRegisterOk (UserManager.run c UserManager.ctor calls).1 ≤ 2 ^ 32 →
      Reply.handedOut (UserManager.run c UserManager.ctor calls).1 =
        (List.range (Reply.countRegisterOk (UserManager.run c UserManager.ctor calls).1)).map
          some ∧
      (Reply.handedOut (UserManager.run c UserManager.ctor calls).1).Nodup) := by
  refine ⟨?_, ?_, ?_, ?_, ?_, ?_⟩
  · intro nick_name school passwd hret
    have h := (UserManager.DealRegister_prepare_id_of_ok c m nick_name school passwd hret).1
    refine ⟨h, ?_⟩
    intro hlt
    rw [h, Nat.mod_eq_of_lt hlt]
    exact ⟨rfl, Nat.lt_succ_self _⟩
  · intro nick_name school passwd hret
    rw [UserManager.DealRegister_prepare_id_of_fail c m nick_name school passwd hret]
  · intro id passwd
    exact UserManager.DealLogin_prepare_id c m id passwd
  · intro user_id addr addr_len
    exact UserManager.IsLogin_prepare_id c m user_id addr addr_len
  · intro vec
    rfl
  · intro calls hle
    have h := (UserManager.run_allocates_ok c calls UserManager.ctor 0
      UserManager.AllocatedUpTo_ctor (by omega)).1
    rw [← List.range_eq_range'] at h
    refine ⟨h, ?_⟩
    rw [h]
    exact (List.nodup_range _).map (fun a b hab => Option.some.inj hab)

/-- Witness of C13: the first registration on a new registry moves
`prepare_id_` from 0 to 1, and a run with a failed and two successful
registrations hands out the ids 0 and 1. -/
theorem UserManager.prepare_id_increases_witness :
    (UserManager.DealRegister StatusCodes.enum UserManager.ctor "alice" "mit"
      "secret").mgr.prepare_id_ = 0 + 1 ∧
    Reply.handedOut (UserManager.run StatusCodes.enum UserManager.ctor
      [Call.Register "alice" "mit" "secret", Call.Register "" "x" "y",
        Call.Login 0 "secret", Call.Register "bob" "cmu" "hunter2"]).1 =
      [some 0, some 1] :=
  have h := UserManager.prepare_id_increases StatusCodes.enum UserManager.ctor
  ⟨((h.1 "alice" "mit" "secret" (by decide)).2 (by decide)).1,
    (h.2.2.2.2.2
      [Call.Register "alice" "mit" "secret", Call.Register "" "x" "y",
        Call.Login 0 "secret", Call.Register "bob" "cmu" "hunter2"] (by decide)).1⟩

theorem UserManager.counter_wraps_at_max (c : StatusCodes) (n : Nat) (hn : n + 1 = 2 ^ 32)
    (nick_name school passwd : String)
    (hnn : nick_name ≠ "") (hs : school ≠ "") (hp : passwd ≠ "")
    (nick_name2 school2 passwd2 : String)
    (hnn2 : nick_name2 ≠ "") (hs2 : school2 ≠ "") (hp2 : passwd2 ≠ "") :
    ((UserManager.DealRegister c { user_map_ := [], prepare_id_ := n, Online_user_ := [] }
        nick_name2 school2 passwd2).ret = 0 ∧
      ¬ (n < (UserManager.DealRegister c
        { user_map_ := [], prepare_id_ := n, Online_user_ := [] }
        nick_name2 school2 passwd2).mgr.prepare_id_)) ∧
    ((UserManager.run c UserManager.ctor
        (List.replicate n (Call.Register nick_name school passwd))).2.prepare_id_ = n ∧
      (UserManager.DealRegister c
        (UserManager.run c UserManager.ctor
          (List.replicate n (Call.Register nick_name school passwd))).2
        nick_name2 school2 passwd2).ret = 0 ∧
      ¬ ((UserManager.run c UserManager.ctor
          (List.replicate n (Call.Register nick_name school passwd))).2.prepare_id_ <
        (UserManager.DealRegister c
          (UserManager.run c UserManager.ctor
            (List.replicate n (Call.Register nick_name school passwd))).2
          nick_name2 school2 passwd2).mgr.prepare_id_)) := by
  obtain ⟨_, hret, _, h0, _⟩ :=
    UserManager.DealRegister_at_max c n hn nick_name2 school2 passwd2 hnn2 hs2 hp2
  obtain ⟨hid, _, hnext⟩ :=
    UserManager.run_replicate_before_wrap c n hn nick_name school passwd hnn hs hp
      nick_name2 school2 passwd2 hnn2 hs2 hp2
  refine ⟨⟨hret, ?_⟩, hid, ?_, ?_⟩
  · rw [h0]
    exact Nat.not_lt_zero n
  · rw [UserManager.DealRegister_of_nonempty c _ nick_name2 school2 passwd2 hnn2 hs2 hp2]
  · rw [hnext]
    exact Nat.not_lt_zero _

/-- C13 as stated fails where the 32-bit counter wraps.  In the registry with
`prepare_id_ = 4294967295`, `DealRegister("alice", "mit", "secret")` succeeds
and `prepare_id_` afterwards (it is 0) is not greater than before.  The same
happens in the registry that 4294967295 calls `DealRegister("a", "b", "c")`
leave behind on a newly constructed registry, whose `prepare_id_` is
4294967295. -/
theorem UserManager.prepare_id_drops :
    ((UserManager.DealRegister StatusCodes.enum
        { user_map_ := [], prepare_id_ := 4294967295, Online_user_ := [] }
        "alice" "mit" "secret").ret = 0 ∧
      ¬ (4294967295 < (UserManager.DealRegister StatusCodes.enum
        { user_map_ := [], prepare_id_ := 4294967295, Online_user_ := [] }
        "alice" "mit" "secret").mgr.prepare_id_)) ∧
    ((UserManager.run StatusCodes.enum UserManager.ctor
        (List.replicate 4294967295 (Call.Register "a" "b" "c"))).2.prepare_id_ = 4294967295 ∧
      (UserManager.DealRegister StatusCodes.enum
        (UserManager.run StatusCodes.enum UserManager.ctor
          (List.replicate 4294967295 (Call.Register "a" "b" "c"))).2
        "alice" "mit" "secret").ret = 0 ∧
      ¬ ((UserManager.run StatusCodes.enum UserManager.ctor
          (List.replicate 4294967295 (Call.Register "a" "b" "c"))).2.prepare_id_ <
        (UserManager.DealRegister StatusCodes.enum
          (UserManager.run StatusCodes.enum UserManager.ctor
            (List.replicate 4294967295 (Call.Register "a" "b" "c"))).2
          "alice" "mit" "secret").mgr.prepare_id_)) :=
  have hn : 4294967295 + 1 = 2 ^ 32 := by norm_num
  UserManager.counter_wraps_at_max StatusCodes.enum 4294967295 hn "a" "b" "c"
    (by decide) (by decide) (by decide) "alice" "mit" "secret"
    (by decide) (by decide) (by decide)

/-! ## What one call changes -/

theorem UserManager.DealRegister_online (c : StatusCodes) (m : UserManager)
    (nick_name school passwd : String) :
    (UserManager.DealRegister c m nick_name school passwd).mgr.Online_user_ =
      m.Online_user_ := by
  unfold UserManager.DealRegister
  split <;> rfl

theorem UserManager.DealLogin_online (c : StatusCodes) (m : UserManager) (id : Nat)
    (passwd : String) : (UserManager.DealLogin c m id passwd).2.Online_user_ = m.Online_user_ := by
  unfold UserManager.DealLogin
  split
  · rfl
  · split
    · rfl
    · dsimp only
      split <;> rfl

theorem UserManager.IsLogin_shape (c : StatusCodes) (m : UserManager) (user_id : Nat)
    (addr : sockaddr_in) (addr_len : Nat) :
    (UserManager.IsLogin c m user_id addr addr_len).2 = m ∨
    ∃ u, m.user_map_.find user_id = some u ∧ u.user_status_ = c.LOGIN_SUCCESS ∧
      (UserManager.IsLogin c m user_id addr addr_len).2 =
        { m with
          user_map_ := m.user_map_.modify user_id (UserInfo.promote c addr addr_len)
          Online_user_ := m.Online_user_ ++ [UserInfo.promote c addr addr_len u] } := by
  cases hfind : m.user_map_.find user_id with
  | none =>
    left
    rw [UserManager.IsLogin_of_not_found c m user_id addr addr_len hfind]
  | some u =>
    by_cases h1 : u.user_status_ ≤ c.LOGIN_FAILED
    · left
      rw [UserManager.IsLogin_of_le_login_failed c m user_id addr addr_len u hfind h1]
    · by_cases h2 : u.user_status_ = c.LOGIN_SUCCESS
      · right
        refine ⟨u, rfl, h2, ?_⟩
        simp only [UserManager.IsLogin, hfind, UserInfo.GetUserStatus, if_neg h1, if_pos h2]
      · left
        simp only [UserManager.IsLogin, hfind, UserInfo.GetUserStatus, if_neg h1, if_neg h2]

theorem UserManager.DealLogin_shape (c : StatusCodes) (m : UserManager) (id : Nat)
    (passwd : String) :
    (UserManager.DealLogin c m id passwd).2 = m ∨
    (UserManager.DealLogin c m id passwd).2 =
      { m with
        user_map_ := m.user_map_.modify id (fun v => v.SetUserStatus c.LOGIN_FAILED) } ∨
    (UserManager.DealLogin c m id passwd).2 =
      { m with
        user_map_ := m.user_map_.modify id (fun v => v.SetUserStatus c.LOGIN_SUCCESS) } := by
  unfold UserManager.DealLogin
  split
  · exact Or.inl rfl
  · split
    · exact Or.inl rfl
    · dsimp only
      split
      · exact Or.inr (Or.inl rfl)
      · exact Or.inr (Or.inr rfl)

theorem UserManager.DealRegister_shape (c : StatusCodes) (m : UserManager)
    (nick_name school passwd : String) :
    (UserManager.DealRegister c m nick_name school passwd).mgr.user_map_ = m.user_map_ ∨
    (m.user_map_.find m.prepare_id_ = none ∧
      (UserManager.DealRegister c m nick_name school passwd).mgr.user_map_ =
        (m.prepare_id_,
          (UserInfo.ctor c nick_name school passwd m.prepare_id_).SetUserStatus
            c.REGISTRE_SUCCESS) :: m.user_map_) := by
  by_cases he : nick_name = "" ∨ school = "" ∨ passwd = ""
  · left
    rw [UserManager.DealRegister_of_empty c m nick_name school passwd he]
  · push_neg at he
    rw [UserManager.DealRegister_of_nonempty c m nick_name school passwd he.1 he.2.1 he.2.2]
    cases hfind : m.user_map_.find m.prepare_id_ with
    | some v =>
      left
      simp only [UserMap.insert, hfind]
    | none =>
      right
      refine ⟨rfl, ?_⟩
      simp only [UserMap.insert, hfind]

theorem UserMap.find_modify_sameProfile (m : UserMap) (id k : Nat) (f : UserInfo → UserInfo)
    (hf : ∀ v, (f v).sameProfile v) (u : UserInfo) (h : UserMap.find m k = some u) :
    ∃ u2, UserMap.find (UserMap.modify m id f) k = some u2 ∧ u2.sameProfile u := by
  by_cases hk : k = id
  · subst hk
    exact ⟨f u, UserMap.find_modify_self m k f u h, hf u⟩
  · refine ⟨u, ?_, rfl, rfl, rfl, rfl⟩
    rw [UserMap.find_modify_of_ne m id k f hk, h]

theorem UserInfo.sameProfile_SetUserStatus (s : Int) (v : UserInfo) :
    (v.SetUserStatus s).sameProfile v :=
  ⟨rfl, rfl, rfl, rfl⟩

theorem UserInfo.sameProfile_promote (c : StatusCodes) (addr : sockaddr_in) (addr_len : Nat)
    (v : UserInfo) : (UserInfo.promote c addr addr_len v).sameProfile v :=
  ⟨rfl, rfl, rfl, rfl⟩

theorem UserManager.step_find_sameProfile (c : StatusCodes) (m : UserManager) (call : Call)
    (id : Nat) (u : UserInfo) (hfind : m.user_map_.find id = some u) :
    ∃ u2, (UserManager.step c m call).2.user_map_.find id = some u2 ∧ u2.sameProfile u := by
  cases call with
  | Register nick_name school passwd =>
    exact ⟨u, UserManager.DealRegister_find_of_found c m nick_name school passwd id u hfind,
      rfl, rfl, rfl, rfl⟩
  | Login id2 passwd =>
    show ∃ u2, (UserManager.DealLogin c m id2 passwd).2.user_map_.find id = some u2 ∧ _
    rcases UserManager.DealLogin_shape c m id2 passwd with h | h | h
    · rw [h]
      exact ⟨u, hfind, rfl, rfl, rfl, rfl⟩
    · rw [h]
      exact UserMap.find_modify_sameProfile _ _ _ _
        (UserInfo.sameProfile_SetUserStatus c.LOGIN_FAILED) u hfind
    · rw [h]
      exact UserMap.find_modify_sameProfile _ _ _ _
        (UserInfo.sameProfile_SetUserStatus c.LOGIN_SUCCESS) u hfind
  | IsLogin user_id addr addr_len =>
    show ∃ u2, (UserManager.IsLogin c m user_id addr addr_len).2.user_map_.find id = some u2 ∧ _
    rcases UserManager.IsLogin_shape c m user_id addr addr_len with h | ⟨v, _, _, h⟩
    · rw [h]
      exact ⟨u, hfind, rfl, rfl, rfl, rfl⟩
    · rw [h]
      exact UserMap.find_modify_sameProfile _ _ _ _
        (UserInfo.sameProfile_promote c addr addr_len) u hfind
  | GetOnlineUser =>
    exact ⟨u, hfind, rfl, rfl, rfl, rfl⟩

/-- C14.  For every registry and every call of one of the four member
functions, `Online_user_` after the call is `Online_user_` before the call
followed by the elements the call added, so what it held before stands
unchanged in front.  The call adds nothing, or it is an `IsLogin` call for an
id whose record `u` has status `LOGIN_SUCCESS` and adds exactly one element,
the promoted copy of `u`; with the status constants in the order the
specification gives, every such `IsLogin` call does add that element.  In
particular `DealLogin` never changes `Online_user_`, whatever it writes to the
record in the map. -/
theorem UserManager.online_append_only (c : StatusCodes) (m : UserManager) :
    (∀ call, ∃ added,
      (UserManager.step c m call).2.Online_user_ = m.Online_user_ ++ added ∧
      (added = [] ∨
        ∃ user_id addr addr_len u, call = Call.IsLogin user_id addr addr_len ∧
          m.user_map_.find user_id = some u ∧ u.user_status_ = c.LOGIN_SUCCESS ∧
          added = [{ u with user_status_ := c.ONLINE, addr_ := addr, addr_len_ := addr_len }])) ∧
    (c.Ordered → ∀ user_id addr addr_len u, m.user_map_.find user_id = some u →
      u.user_status_ = c.LOGIN_SUCCESS →
      (UserManager.step c m (Call.IsLogin user_id addr addr_len)).2.Online_user_ =
        m.Online_user_ ++
          [{ u with user_status_ := c.ONLINE, addr_ := addr, addr_len_ := addr_len }]) ∧
    (∀ id passwd, (UserManager.DealLogin c m id passwd).2.Online_user_ = m.Online_user_) := by
  refine ⟨?_, ?_, ?_⟩
  · intro call
    cases call with
    | Register nick_name school passwd =>
      refine ⟨[], ?_, Or.inl rfl⟩
      rw [List.append_nil]
      exact UserManager.DealRegister_online c m nick_name school passwd
    | Login id passwd =>
      refine ⟨[], ?_, Or.inl rfl⟩
      rw [List.append_nil]
      exact UserManager.DealLogin_online c m id passwd
    | IsLogin user_id addr addr_len =>
      rcases UserManager.IsLogin_shape c m user_id addr addr_len with h | ⟨u, hfind, hst, h⟩
      · refine ⟨[], ?_, Or.inl rfl⟩
        rw [List.append_nil]
        show (UserManager.IsLogin c m user_id addr addr_len).2.Online_user_ = _
        rw [h]
      · refine ⟨[UserInfo.promote c addr addr_len u], ?_,
          Or.inr ⟨user_id, addr, addr_len, u, rfl, hfind, hst, rfl⟩⟩
        show (UserManager.IsLogin c m user_id addr addr_len).2.Online_user_ = _
        rw [h]
    | GetOnlineUser =>
      exact ⟨[], (List.append_nil _).symm, Or.inl rfl⟩
  · intro hc user_id addr addr_len u hfind hst
    show (UserManager.IsLogin c m user_id addr addr_len).2.Online_user_ = _
    rw [UserManager.IsLogin_of_login_success c m user_id addr addr_len u hfind hc.2.2.1 hst]
    rfl
  · intro id passwd
    exact UserManager.DealLogin_online c m id passwd

/-- Witness of C14: user 0 is online at 127.0.0.1:8080 and logs in again; the
next datagram, from port 9090, adds a second element behind the first. -/
theorem UserManager.online_append_only_witness :
    (UserManager.step StatusCodes.enum
      (UserManager.run StatusCodes.enum UserManager.ctor
        [Call.Register "alice" "mit" "secret", Call.Login 0 "secret",
          Call.IsLogin 0 (sockaddr_in.mk 2 8080 2130706433 0) 16, Call.Login 0 "secret"]).2
      (Call.IsLogin 0 (sockaddr_in.mk 2 9090 2130706433 0) 16)).2.Online_user_ =
    (UserManager.run StatusCodes.enum UserManager.ctor
      [Call.Register "alice" "mit" "secret", Call.Login 0 "secret",
        Call.IsLogin 0 (sockaddr_in.mk 2 8080 2130706433 0) 16,
        Call.Login 0 "secret"]).2.Online_user_ ++
      [{ nick_name_ := "alice", school_ := "mit", passwd_ := "secret", user_id_ := 0,
         user_status_ := 4, addr_ := sockaddr_in.mk 2 9090 2130706433 0, addr_len_ := 16 }] :=
  (UserManager.online_append_only StatusCodes.enum
    (UserManager.run StatusCodes.enum UserManager.ctor
      [Call.Register "alice" "mit" "secret", Call.Login 0 "secret",
        Call.IsLogin 0 (sockaddr_in.mk 2 8080 2130706433 0) 16, Call.Login 0 "secret"]).2).2.1
    (by decide) 0 (sockaddr_in.mk 2 9090 2130706433 0) 16
    { nick_name_ := "alice", school_ := "mit", passwd_ := "secret", user_id_ := 0,
      user_status_ := 3, addr_ := sockaddr_in.mk 2 8080 2130706433 0, addr_len_ := 16 }
    (by decide) rfl

/-- C15.  For every registry, every id that is a key of `user_map_` (record
`u`) and every call of one of the four member functions, the map still holds a
record under that id after the call, with the same `user_id_`, nickname,
school and password as `u`. -/
theorem UserManager.profile_write_once (c : StatusCodes) (m : UserManager) (call : Call)
    (id : Nat) (u : UserInfo) (hfind : m.user_map_.find id = some u) :
    ∃ u2, (UserManager.step c m call).2.user_map_.find id = some u2 ∧
      u2.user_id_ = u.user_id_ ∧ u2.nick_name_ = u.nick_name_ ∧ u2.school_ = u.school_ ∧
      u2.passwd_ = u.passwd_ :=
  UserManager.step_find_sameProfile c m call id u hfind

/-- Witness of C15: a login of the freshly registered user 0 with a wrong
password keeps a record under id 0 with the profile it was registered with. -/
theorem UserManager.profile_write_once_witness :
    ∃ u2, (UserManager.step StatusCodes.enum
        (UserManager.DealRegister StatusCodes.enum UserManager.ctor "alice" "mit" "secret").mgr
        (Call.Login 0 "wrong")).2.user_map_.find 0 = some u2 ∧
      u2.user_id_ = 0 ∧ u2.nick_name_ = "alice" ∧ u2.school_ = "mit" ∧
      u2.passwd_ = "secret" :=
  UserManager.profile_write_once StatusCodes.enum
    (UserManager.DealRegister StatusCodes.enum UserManager.ctor "alice" "mit" "secret").mgr
    (Call.Login 0 "wrong") 0
    { nick_name_ := "alice", school_ := "mit", passwd_ := "secret", user_id_ := 0,
      user_status_ := 1, addr_ := sockaddr_in.zero, addr_len_ := 0 }
    (by decide)

/-! ## Invariants of the reachable registries -/

theorem UserManager.run_invariant (c : StatusCodes) (P : UserManager → Prop)
    (hstep : ∀ m call, P m → P (UserManager.step c m call).2) (calls : List Call) :
    ∀ m, P m → P (UserManager.run c m calls).2 := by
  induction calls with
  | nil =>
    intro m h
    exact h
  | cons call rest ih =>
    intro m h
    exact ih _ (hstep m call h)

theorem UserMap.mem_of_find (m : UserMap) (k : Nat) (u : UserInfo)
    (h : UserMap.find m k = some u) : (k, u) ∈ m := by
  induction m with
  | nil => simp [UserMap.find] at h
  | cons e rest ih =>
    obtain ⟨j, v⟩ := e
    by_cases hj : j = k
    · simp only [UserMap.find, hj, if_true, Option.some.injEq] at h
      rw [hj, h]
      exact List.mem_cons_self _ _
    · simp only [UserMap.find, hj, if_false] at h
      exact List.mem_cons_of_mem _ (ih h)

theorem UserMap.forall_modify (m : UserMap) (id : Nat) (f : UserInfo → UserInfo)
    (P : Nat × UserInfo → Prop) (hm : ∀ e ∈ m, P e)
    (hf : ∀ v, (id, v) ∈ m → P (id, f v)) : ∀ e ∈ UserMap.modify m id f, P e := by
  induction m with
  | nil =>
    intro e he
    simp [UserMap.modify] at he
  | cons e0 rest ih =>
    obtain ⟨j, v⟩ := e0
    intro e he
    by_cases hj : j = id
    · simp only [UserMap.modify, hj, if_true, List.mem_cons] at he
      rcases he with he | he
      · rw [he]
        exact hf v (by rw [hj]; exact List.mem_cons_self _ _)
      · exact hm e (List.mem_cons_of_mem _ he)
    · simp only [UserMap.modify, hj, if_false, List.mem_cons] at he
      rcases he with he | he
      · rw [he]
        exact hm (j, v) (List.mem_cons_self _ _)
      · exact ih (fun e1 h1 => hm e1 (List.mem_cons_of_mem _ h1))
          (fun v1 h1 => hf v1 (List.mem_cons_of_mem _ h1)) e he

theorem UserManager.IdsConsistent_step (c : StatusCodes) (m : UserManager) (call : Call)
    (h : m.IdsConsistent) : (UserManager.step c m call).2.IdsConsistent := by
  cases call with
  | Register nick_name school passwd =>
    show ∀ e ∈ (UserManager.DealRegister c m nick_name school passwd).mgr.user_map_, _
    rcases UserManager.DealRegister_shape c m nick_name school passwd with hs | ⟨_, hs⟩
    · rw [hs]
      exact h
    · rw [hs]
      intro e he
      rcases List.mem_cons.mp he with he | he
      · rw [he]
        rfl
      · exact h e he
  | Login id passwd =>
    show ∀ e ∈ (UserManager.DealLogin c m id passwd).2.user_map_, _
    rcases UserManager.DealLogin_shape c m id passwd with hs | hs | hs
    · rw [hs]
      exact h
    · rw [hs]
      exact UserMap.forall_modify _ _ _ (fun e => e.2.user_id_ = e.1) h (fun v hv => h (id, v) hv)
    · rw [hs]
      exact UserMap.forall_modify _ _ _ (fun e => e.2.user_id_ = e.1) h (fun v hv => h (id, v) hv)
  | IsLogin user_id addr addr_len =>
    show ∀ e ∈ (UserManager.IsLogin c m user_id addr addr_len).2.user_map_, _
    rcases UserManager.IsLogin_shape c m user_id addr addr_len with hs | ⟨u, _, _, hs⟩
    · rw [hs]
      exact h
    · rw [hs]
      exact UserMap.forall_modify _ _ _ (fun e => e.2.user_id_ = e.1) h
        (fun v hv => h (user_id, v) hv)
  | GetOnlineUser => exact h

theorem UserManager.NoRegisterFailed_step (c : StatusCodes) (hc : c.Ordered) (m : UserManager)
    (call : Call) (h : m.NoRegisterFailed c) :
    (UserManager.step c m call).2.NoRegisterFailed c := by
  obtain ⟨h12, h23, h34, h45⟩ := hc
  have hRS : c.REGISTRE_SUCCESS ≠ c.REGISTER_FAILED := ne_of_gt h12
  have hLF : c.LOGIN_FAILED ≠ c.REGISTER_FAILED := ne_of_gt (lt_trans h12 h23)
  have hLS : c.LOGIN_SUCCESS ≠ c.REGISTER_FAILED := ne_of_gt (lt_trans (lt_trans h12 h23) h34)
  have hON : c.ONLINE ≠ c.REGISTER_FAILED :=
    ne_of_gt (lt_trans (lt_trans (lt_trans h12 h23) h34) h45)
  obtain ⟨hmap, hon⟩ := h
  cases call with
  | Register nick_name school passwd =>
    refine ⟨?_, ?_⟩
    · show ∀ e ∈ (UserManager.DealRegister c m nick_name school passwd).mgr.user_map_, _
      rcases UserManager.DealRegister_shape c m nick_name school passwd with hs | ⟨_, hs⟩
      · rw [hs]
        exact hmap
      · rw [hs]
        intro e he
        rcases List.mem_cons.mp he with he | he
        · rw [he]
          exact hRS
        · exact hmap e he
    · show ∀ o ∈ (UserManager.DealRegister c m nick_name school passwd).mgr.Online_user_, _
      rw [UserManager.DealRegister_online]
      exact hon
  | Login id passwd =>
    refine ⟨?_, ?_⟩
    · show ∀ e ∈ (UserManager.DealLogin c m id passwd).2.user_map_, _
      rcases UserManager.DealLogin_shape c m id passwd with hs | hs | hs
      · rw [hs]
        exact hmap
      · rw [hs]
        exact UserMap.forall_modify _ _ _ (fun e => e.2.user_status_ ≠ c.REGISTER_FAILED) hmap
          (fun _ _ => hLF)
      · rw [hs]
        exact UserMap.forall_modify _ _ _ (fun e => e.2.user_status_ ≠ c.REGISTER_FAILED) hmap
          (fun _ _ => hLS)
    · show ∀ o ∈ (UserManager.DealLogin c m id passwd).2.Online_user_, _
      rw [UserManager.DealLogin_online]
      exact hon
  | IsLogin user_id addr addr_len =>
    show (UserManager.IsLogin c m user_id addr addr_len).2.NoRegisterFailed c
    rcases UserManager.IsLogin_shape c m user_id addr addr_len with hs | ⟨u, _, _, hs⟩
    · rw [hs]
      exact ⟨hmap, hon⟩
    · rw [hs]
      refine ⟨?_, ?_⟩
      · exact UserMap.forall_modify _ _ _ (fun e => e.2.user_status_ ≠ c.REGISTER_FAILED) hmap
          (fun _ _ => hON)
      · intro o ho
        rcases List.mem_append.mp ho with ho | ho
        · exact hon o ho
        · rw [List.mem_singleton.mp ho]
          exact hON
  | GetOnlineUser => exact ⟨hmap, hon⟩

theorem UserManager.OnlineWellFormed_step (c : StatusCodes) (m : UserManager) (call : Call)
    (hids : m.IdsConsistent) (h : m.OnlineWellFormed c) :
    (UserManager.step c m call).2.OnlineWellFormed c := by
  have hold : ∀ o : UserInfo,
      (o.user_status_ = c.ONLINE ∧
        ∃ u, m.user_map_.find o.user_id_ = some u ∧ u.nick_name_ = o.nick_name_ ∧
          u.school_ = o.school_ ∧ u.passwd_ = o.passwd_) →
      (o.user_status_ = c.ONLINE ∧
        ∃ u, (UserManager.step c m call).2.user_map_.find o.user_id_ = some u ∧
          u.nick_name_ = o.nick_name_ ∧ u.school_ = o.school_ ∧ u.passwd_ = o.passwd_) := by
    intro o ho
    obtain ⟨hst, u, hf, hn, hs, hp⟩ := ho
    obtain ⟨u2, hf2, _, hn2, hs2, hp2⟩ :=
      UserManager.step_find_sameProfile c m call o.user_id_ u hf
    exact ⟨hst, u2, hf2, hn2.trans hn, hs2.trans hs, hp2.trans hp⟩
  intro o ho
  cases call with
  | Register nick_name school passwd =>
    have hon : (UserManager.step c m (Call.Register nick_name school passwd)).2.Online_user_ =
        m.Online_user_ := UserManager.DealRegister_online c m nick_name school passwd
    rw [hon] at ho
    exact hold o (h o ho)
  | Login id passwd =>
    have hon : (UserManager.step c m (Call.Login id passwd)).2.Online_user_ =
        m.Online_user_ := UserManager.DealLogin_online c m id passwd
    rw [hon] at ho
    exact hold o (h o ho)
  | IsLogin user_id addr addr_len =>
    rcases UserManager.IsLogin_shape c m user_id addr addr_len with hs | ⟨u, hfind, _, hs⟩
    · have hon : (UserManager.step c m (Call.IsLogin user_id addr addr_len)).2.Online_user_ =
          m.Online_user_ := congrArg UserManager.Online_user_ hs
      rw [hon] at ho
      exact hold o (h o ho)
    · have hon : (UserManager.step c m (Call.IsLogin user_id addr addr_len)).2.Online_user_ =
          m.Online_user_ ++ [UserInfo.promote c addr addr_len u] :=
        congrArg UserManager.Online_user_ hs
      have hmap : (UserManager.step c m (Call.IsLogin user_id addr addr_len)).2.user_map_ =
          m.user_map_.modify user_id (UserInfo.promote c addr addr_len) :=
        congrArg UserManager.user_map_ hs
      rw [hon] at ho
      rcases List.mem_append.mp ho with ho | ho
      · exact hold o (h o ho)
      · rw [List.mem_singleton.mp ho]
        have hid : u.user_id_ = user_id := hids (user_id, u) (UserMap.mem_of_find _ _ _ hfind)
        refine ⟨rfl, UserInfo.promote c addr addr_len u, ?_, rfl, rfl, rfl⟩
        rw [hmap]
        show UserMap.find _ u.user_id_ = _
        rw [hid]
        exact UserMap.find_modify_self _ _ _ _ hfind
  | GetOnlineUser =>
    exact hold o (h o ho)

theorem UserManager.nodup_keys_step (c : StatusCodes) (m : UserManager) (call : Call)
    (h : (m.user_map_.map Prod.fst).Nodup) :
    ((UserManager.step c m call).2.user_map_.map Prod.fst).Nodup := by
  cases call with
  | Register nick_name school passwd =>
    show ((UserManager.DealRegister c m nick_name school passwd).mgr.user_map_.map
      Prod.fst).Nodup
    rcases UserManager.DealRegister_shape c m nick_name school passwd with hs | ⟨hfresh, hs⟩
    · rw [hs]
      exact h
    · rw [hs, List.map_cons]
      exact List.nodup_cons.mpr ⟨(UserMap.find_eq_none_iff _ _).mp hfresh, h⟩
  | Login id passwd =>
    show ((UserManager.DealLogin c m id passwd).2.user_map_.map Prod.fst).Nodup
    rw [UserManager.DealLogin_keys]
    exact h
  | IsLogin user_id addr addr_len =>
    show ((UserManager.IsLogin c m user_id addr addr_len).2.user_map_.map Prod.fst).Nodup
    rw [UserManager.IsLogin_keys]
    exact h
  | GetOnlineUser => exact h

/-- C16.  With the status constants in the order the specification gives, after
any finite serial sequence of calls on a newly constructed registry no element
of `user_map_` (so no record that `find` returns) and no element of
`Online_user_` has status `REGISTER_FAILED`, even though the constructor of
`UserInfo` sets the status to `REGISTER_FAILED`. -/
theorem UserManager.never_register_failed (c : StatusCodes) (hc : c.Ordered)
    (calls : List Call) :
    (∀ e ∈ (UserManager.run c UserManager.ctor calls).2.user_map_,
      e.2.user_status_ ≠ c.REGISTER_FAILED) ∧
    (∀ k u, (UserManager.run c UserManager.ctor calls).2.user_map_.find k = some u →
      u.user_status_ ≠ c.REGISTER_FAILED) ∧
    (∀ o ∈ (UserManager.run c UserManager.ctor calls).2.Online_user_,
      o.user_status_ ≠ c.REGISTER_FAILED) ∧
    (∀ nick_name school passwd user_id,
      (UserInfo.ctor c nick_name school passwd user_id).user_status_ = c.REGISTER_FAILED) := by
  have h0 : UserManager.ctor.NoRegisterFailed c :=
    ⟨fun e he => absurd he (List.not_mem_nil e), fun o ho => absurd ho (List.not_mem_nil o)⟩
  obtain ⟨hmap, hon⟩ := UserManager.run_invariant c (fun m => m.NoRegisterFailed c)
    (fun m call => UserManager.NoRegisterFailed_step c hc m call) calls UserManager.ctor h0
  refine ⟨hmap, ?_, hon, fun _ _ _ _ => rfl⟩
  intro k u hfind
  exact hmap (k, u) (UserMap.mem_of_find _ _ _ hfind)

/-- Witness of C16: after a registration and a failed login, the record of
user 0 is not in `REGISTER_FAILED` (0 in the enumeration counted from zero). -/
theorem UserManager.never_register_failed_witness :
    (UserManager.run StatusCodes.enum UserManager.ctor
      [Call.Register "alice" "mit" "secret", Call.Login 0 "wrong"]).2.user_map_.find 0 =
      some { nick_name_ := "alice", school_ := "mit", passwd_ := "secret", user_id_ := 0,
             user_status_ := 2, addr_ := sockaddr_in.zero, addr_len_ := 0 } ∧
    (2 : Int) ≠ StatusCodes.enum.REGISTER_FAILED :=
  ⟨by decide,
    (UserManager.never_register_failed StatusCodes.enum (by decide)
      [Call.Register "alice" "mit" "secret", Call.Login 0 "wrong"]).2.1 0
      { nick_name_ := "alice", school_ := "mit", passwd_ := "secret", user_id_ := 0,
        user_status_ := 2, addr_ := sockaddr_in.zero, addr_len_ := 0 }
      (by decide)⟩

/-- C18.  After any serial sequence of calls on a newly constructed registry in
which fewer than `2^32` calls of `DealRegister` succeed, `prepare_id_` is the
number of successful registrations, the map has `prepare_id_` elements, its
keys are pairwise different and are exactly the numbers below `prepare_id_`
(so `find` succeeds exactly on these and `prepare_id_` itself is not a key),
and the record stored under key `k` has `user_id_ = k`. -/
theorem UserManager.keys_are_ids (c : StatusCodes) (calls : List Call)
    (hlt : Reply.countRegisterOk (UserManager.run c UserManager.ctor calls).1 < 2 ^ 32) :
    (UserManager.run c UserManager.ctor calls).2.prepare_id_ =
      Reply.countRegisterOk (UserManager.run c UserManager.ctor calls).1 ∧
    (UserManager.run c UserManager.ctor calls).2.user_map_.size =
      (UserManager.run c UserManager.ctor calls).2.prepare_id_ ∧
    ((UserManager.run c UserManager.ctor calls).2.user_map_.map Prod.fst).Nodup ∧
    (∀ k, k ∈ (UserManager.run c UserManager.ctor calls).2.user_map_.map Prod.fst ↔
      k < (UserManager.run c UserManager.ctor calls).2.prepare_id_) ∧
    (∀ k, (∃ u, (UserManager.run c UserManager.ctor calls).2.user_map_.find k = some u) ↔
      k < (UserManager.run c UserManager.ctor calls).2.prepare_id_) ∧
    (UserManager.run c UserManager.ctor calls).2.user_map_.find
      (UserManager.run c UserManager.ctor calls).2.prepare_id_ = none ∧
    (∀ k u, (UserManager.run c UserManager.ctor calls).2.user_map_.find k = some u →
      u.user_id_ = k) := by
  obtain ⟨hid, hsize, hkeys⟩ :=
    (UserManager.run_allocates_ok c calls UserManager.ctor 0 UserManager.AllocatedUpTo_ctor
      (by omega)).2
  rw [Nat.zero_add] at hid hsize
  simp only [Nat.zero_add] at hkeys
  rw [Nat.mod_eq_of_lt hlt] at hid
  have hids : (UserManager.run c UserManager.ctor calls).2.IdsConsistent :=
    UserManager.run_invariant c (fun m => m.IdsConsistent)
      (fun m call => UserManager.IdsConsistent_step c m call) calls UserManager.ctor
      (fun e he => absurd he (List.not_mem_nil e))
  have hnodup : ((UserManager.run c UserManager.ctor calls).2.user_map_.map Prod.fst).Nodup :=
    UserManager.run_invariant c (fun m => (m.user_map_.map Prod.fst).Nodup)
      (fun m call => UserManager.nodup_keys_step c m call) calls UserManager.ctor
      List.nodup_nil
  refine ⟨hid, ?_, hnodup, ?_, ?_, ?_, ?_⟩
  · rw [hsize, hid]
  · intro k
    rw [hid]
    exact hkeys k
  · intro k
    rw [hid, ← hkeys k]
    constructor
    · intro hex
      obtain ⟨u, hu⟩ := hex
      by_contra hnot
      rw [(UserMap.find_eq_none_iff _ _).mpr hnot] at hu
      exact Option.noConfusion hu
    · intro hmem
      cases hf : UserMap.find (UserManager.run c UserManager.ctor calls).2.user_map_ k with
      | none => exact absurd hmem ((UserMap.find_eq_none_iff _ _).mp hf)
      | some u => exact ⟨u, rfl⟩
  · rw [UserMap.find_eq_none_iff, hid, hkeys]
    exact lt_irrefl _
  · intro k u hfind
    exact hids (k, u) (UserMap.mem_of_find _ _ _ hfind)

/-- Witness of C18: two successful registrations around a failed one, a login
and a datagram leave `prepare_id_ = 2` and a map with two elements. -/
theorem UserManager.keys_are_ids_witness :
    (UserManager.run StatusCodes.enum UserManager.ctor
      [Call.Register "alice" "mit" "secret", Call.Register "" "x" "y", Call.Login 0 "secret",
        Call.IsLogin 0 (sockaddr_in.mk 2 8080 2130706433 0) 16,
        Call.Register "bob" "cmu" "hunter2"]).2.prepare_id_ = 2 ∧
    (UserManager.run StatusCodes.enum UserManager.ctor
      [Call.Register "alice" "mit" "secret", Call.Register "" "x" "y", Call.Login 0 "secret",
        Call.IsLogin 0 (sockaddr_in.mk 2 8080 2130706433 0) 16,
        Call.Register "bob" "cmu" "hunter2"]).2.user_map_.size =
      (UserManager.run StatusCodes.enum UserManager.ctor
        [Call.Register "alice" "mit" "secret", Call.Register "" "x" "y", Call.Login 0 "secret",
          Call.IsLogin 0 (sockaddr_in.mk 2 8080 2130706433 0) 16,
          Call.Register "bob" "cmu" "hunter2"]).2.prepare_id_ :=
  have h := UserManager.keys_are_ids StatusCodes.enum
    [Call.Register "alice" "mit" "secret", Call.Register "" "x" "y", Call.Login 0 "secret",
      Call.IsLogin 0 (sockaddr_in.mk 2 8080 2130706433 0) 16,
      Call.Register "bob" "cmu" "hunter2"] (by decide)
  ⟨h.1, h.2.1⟩

/-- C20.  After any finite serial sequence of calls on a newly constructed
registry, every element of `Online_user_` has status `ONLINE`, its `user_id_`
is a key of `user_map_`, and the record under that key has the same nickname,
school and password as the element. -/
theorem UserManager.online_entries_well_formed (c : StatusCodes) (calls : List Call) :
    ∀ o ∈ (UserManager.run c UserManager.ctor calls).2.Online_user_,
      o.user_status_ = c.ONLINE ∧
      ∃ u, (UserManager.run c UserManager.ctor calls).2.user_map_.find o.user_id_ = some u ∧
        u.nick_name_ = o.nick_name_ ∧ u.school_ = o.school_ ∧ u.passwd_ = o.passwd_ :=
  (UserManager.run_invariant c (fun m => m.IdsConsistent ∧ m.OnlineWellFormed c)
    (fun m call h =>
      ⟨UserManager.IdsConsistent_step c m call h.1,
        UserManager.OnlineWellFormed_step c m call h.1 h.2⟩)
    calls UserManager.ctor
    ⟨fun e he => absurd he (List.not_mem_nil e),
      fun o ho => absurd ho (List.not_mem_nil o)⟩).2

/-- Witness of C20: the one element of `Online_user_` after user 0 registered,
logged in, sent a datagram and then failed a login. -/
theorem UserManager.online_entries_well_formed_witness :
    (4 : Int) = StatusCodes.enum.ONLINE ∧
    ∃ u, (UserManager.run StatusCodes.enum UserManager.ctor
        [Call.Register "alice" "mit" "secret", Call.Login 0 "secret",
          Call.IsLogin 0 (sockaddr_in.mk 2 8080 2130706433 0) 16,
          Call.Login 0 "wrong"]).2.user_map_.find 0 = some u ∧
      u.nick_name_ = "alice" ∧ u.school_ = "mit" ∧ u.passwd_ = "secret" :=
  UserManager.online_entries_well_formed StatusCodes.enum
    [Call.Register "alice" "mit" "secret", Call.Login 0 "secret",
      Call.IsLogin 0 (sockaddr_in.mk 2 8080 2130706433 0) 16, Call.Login 0 "wrong"]
    { nick_name_ := "alice", school_ := "mit", passwd_ := "secret", user_id_ := 0,
      user_status_ := 4, addr_ := sockaddr_in.mk 2 8080 2130706433 0, addr_len_ := 16 }
    (by decide)

/-! ## A second promotion -/

/-- C19.  With the status constants in the order the specification gives, on a
newly constructed registry and for every non-empty nickname, school and
password and every two addresses, the calls `DealRegister` (which hands out
id 0), `DealLogin(0, passwd)`, `IsLogin(0, addr1, len1)`, `DealLogin(0, passwd)`,
`IsLogin(0, addr2, len2)` all return 0, and `GetOnlineUser` then yields two
elements for the same user (same nickname, school, password and id 0), the
first with address `(addr1, len1)` and the second with `(addr2, len2)`. -/
theorem UserManager.listed_twice (c : StatusCodes) (hc : c.Ordered)
    (nick_name school passwd : String)
    (hn : nick_name ≠ "") (hs : school ≠ "") (hp : passwd ≠ "")
    (addr1 : sockaddr_in) (len1 : Nat) (addr2 : sockaddr_in) (len2 : Nat) :
    (UserManager.run c UserManager.ctor
      [Call.Register nick_name school passwd, Call.Login 0 passwd,
        Call.IsLogin 0 addr1 len1, Call.Login 0 passwd,
        Call.IsLogin 0 addr2 len2, Call.GetOnlineUser]).1 =
      [Reply.Register 0 (some 0), Reply.Login 0, Reply.IsLogin 0, Reply.Login 0,
        Reply.IsLogin 0,
        Reply.GetOnlineUser
          [{ nick_name_ := nick_name, school_ := school, passwd_ := passwd, user_id_ := 0,
             user_status_ := c.ONLINE, addr_ := addr1, addr_len_ := len1 },
           { nick_name_ := nick_name, school_ := school, passwd_ := passwd, user_id_ := 0,
             user_status_ := c.ONLINE, addr_ := addr2, addr_len_ := len2 }]] := by
  have hp0 : ¬ passwd.length = 0 := fun h => hp ((String.length_eq_zero_iff_eq_empty _).mp h)
  obtain ⟨_, _, h34, h45⟩ := hc
  have h1 : ¬ c.LOGIN_SUCCESS ≤ c.LOGIN_FAILED := not_le.mpr h34
  simp [UserManager.run, UserManager.step,
    UserManager.DealRegister_of_nonempty c _ nick_name school passwd hn hs hp,
    UserManager.ctor, UserMap.insert, UserMap.find, UserMap.modify, UserManager.DealLogin, hp0,
    UserManager.IsLogin, UserManager.GetOnlineUser, UserInfo.ctor, UserInfo.SetUserStatus,
    UserInfo.GetPasswd, UserInfo.GetUserStatus, UserInfo.promote, UserInfo.SetaddrInfo,
    UserInfo.SetaddrLenInfo, h1]

/-- Witness of C19: alice of mit, seen at 127.0.0.1:8080, logs in again and is
seen at 127.0.0.1:9090. -/
theorem UserManager.listed_twice_witness :
    (UserManager.run StatusCodes.enum UserManager.ctor
      [Call.Register "alice" "mit" "secret", Call.Login 0 "secret",
        Call.IsLogin 0 (sockaddr_in.mk 2 8080 2130706433 0) 16, Call.Login 0 "secret",
        Call.IsLogin 0 (sockaddr_in.mk 2 9090 2130706433 0) 16, Call.GetOnlineUser]).1 =
      [Reply.Register 0 (some 0), Reply.Login 0, Reply.IsLogin 0, Reply.Login 0,
        Reply.IsLogin 0,
        Reply.GetOnlineUser
          [{ nick_name_ := "alice", school_ := "mit", passwd_ := "secret", user_id_ := 0,
             user_status_ := 4, addr_ := sockaddr_in.mk 2 8080 2130706433 0, addr_len_ := 16 },
           { nick_name_ := "alice", school_ := "mit", passwd_ := "secret", user_id_ := 0,
             user_status_ := 4, addr_ := sockaddr_in.mk 2 9090 2130706433 0,
             addr_len_ := 16 }]] :=
  UserManager.listed_twice StatusCodes.enum (by decide) "alice" "mit" "secret"
    (by decide) (by decide) (by decide)
    (sockaddr_in.mk 2 8080 2130706433 0) 16 (sockaddr_in.mk 2 9090 2130706433 0) 16

/-! ## The lock discipline -/

theorem UserManager.DealRegister_events_disciplined (nick_name school passwd : String) :
    LockEvent.disciplined false (UserManager.DealRegister_events nick_name school passwd) =
      true := by
  unfold UserManager.DealRegister_events
  split <;> rfl

theorem UserManager.DealLogin_events_disciplined (m : UserManager) (id : Nat)
    (passwd : String) :
    LockEvent.disciplined false (UserManager.DealLogin_events m id passwd) = true := by
  unfold UserManager.DealLogin_events
  split
  · rfl
  · split
    · rfl
    · split <;> rfl

theorem UserManager.IsLogin_events_disciplined (c : StatusCodes) (m : UserManager)
    (user_id : Nat) :
    LockEvent.disciplined false (UserManager.IsLogin_events c m user_id) = true := by
  unfold UserManager.IsLogin_events
  split
  · rfl
  · split
    · rfl
    · split <;> rfl

/-- C17 fails on `GetOnlineUser`.  Its only statement reads `Online_user_` and
the function never locks `map_lock_`, so for every registry its events break
the lock discipline: the registry is touched while the mutex is not held.  The
other three member functions keep the discipline on every path: `DealRegister`,
`DealLogin` and `IsLogin` lock before their first access and unlock once
before every return that follows a lock, for all arguments and registries. -/
theorem UserManager.GetOnlineUser_reads_unlocked :
    UserManager.GetOnlineUser_events = [LockEvent.access] ∧
    (∀ (c : StatusCodes) (m : UserManager),
      LockEvent.disciplined false (UserManager.events c m Call.GetOnlineUser) = false) ∧
    (∀ (c : StatusCodes) (m : UserManager) nick_name school passwd,
      LockEvent.disciplined false
        (UserManager.events c m (Call.Register nick_name school passwd)) = true) ∧
    (∀ (c : StatusCodes) (m : UserManager) id passwd,
      LockEvent.disciplined false (UserManager.events c m (Call.Login id passwd)) = true) ∧
    (∀ (c : StatusCodes) (m : UserManager) user_id addr addr_len,
      LockEvent.disciplined false
        (UserManager.events c m (Call.IsLogin user_id addr addr_len)) = true) :=
  ⟨rfl, fun _ _ => rfl,
    fun _ _ nick_name school passwd =>
      UserManager.DealRegister_events_disciplined nick_name school passwd,
    fun _ m id passwd => UserManager.DealLogin_events_disciplined m id passwd,
    fun c m user_id _ _ => UserManager.IsLogin_events_disciplined c m user_id⟩
